import Mathlib

/-!
# Verification of the question-cleaner work-distribution core

Shallow embedding of the crash-safe job queue, worker loop, failure
classifier, credential pool and progress tracker of the
`question-cleaner` repository, together with proofs of the claims about
them.

Embedded source files:
* `src/database.ts` (`DatabaseClient.claimBatch`, `updateBatch`,
  `markBatchFailed`, `getUnprocessedCount`, `getTotalQuestions`)
* `src/migrate.ts` (`migrateDatabase`, `resetStuckBatches`)
* `src/gemini.ts` (`GeminiClient.markKeyExhausted`, `hasAvailableKeys`,
  `rotateKey`)
* `src/validator.ts` (`Validator.sanitizeBatch`, `validate`,
  `validateBatch`)
* `src/progress.ts` (`ProgressTracker`)
* the `QuestionProcessor` worker loop (`processor.ts`; the revision in
  the dump with `isFatalError` and the try/catch worker body).

The SQLite `questions` table is modelled as a list of rows; the columns
not read or written by the embedded operations (`category`, `air_date`,
`round`, ...) are elided.  JSON-parse validity (`JSON.parse` succeeding)
is an external collaborator and is passed in as a boolean-valued
parameter `jsonOk`.
-/

namespace QuestionCleaner

/-- One row of the `questions` table: `id TEXT PRIMARY KEY`, the payload
columns written by `updateBatch`, and the `processing_status` column.
The status is kept as a plain string, exactly as in the database:
`unprocessed`, `processing` or `completed`, plus whatever an external
importing step may have put there. -/
structure Row where
  id : String
  question : String
  a : String
  b : String
  c : String
  d : String
  metadata : String
  status : String
  deriving Repr, DecidableEq

/-- A processed question as returned by the Gemini response parser and
consumed by `updateBatch` (`ProcessedQuestion` in `types.ts`);
`metadata` is the optional free-form field (`metadata?: string`). -/
structure ProcessedQuestion where
  id : String
  question : String
  a : String
  b : String
  c : String
  d : String
  metadata : Option String
  deriving Repr, DecidableEq

/-! ## DatabaseClient (src/database.ts) -/

/-- Step 1 of `DatabaseClient.claimBatch`:
`SELECT id FROM questions WHERE processing_status = 'unprocessed' LIMIT ?`
(the store's default scan order is the list order). -/
def claimIds (batchSize : Nat) (db : List Row) : List String :=
  ((db.filter (fun r => r.status == "unprocessed")).take batchSize).map (·.id)

/-- Step 2 of `DatabaseClient.claimBatch`:
`UPDATE questions SET processing_status = 'processing' WHERE id IN (...)`. -/
def claimMark (ids : List String) (db : List Row) : List Row :=
  db.map (fun r => if ids.contains r.id then { r with status := "processing" } else r)

/-- Source `DatabaseClient.claimBatch(batchSize)`: inside one transaction,
select the ids (step 1); if there are none, return `[]` leaving the
table untouched; else mark them (step 2) and return the full marked
rows (`SELECT * FROM questions WHERE id IN (...)`, step 3).
Returns the claimed rows and the table after the transaction. -/
def claimBatch (batchSize : Nat) (db : List Row) : List Row × List Row :=
  let ids := claimIds batchSize db
  if ids.isEmpty then ([], db)
  else ((claimMark ids db).filter (fun r => ids.contains r.id), claimMark ids db)

/-- Source `DatabaseClient.updateBatch(processed, status)`: one
`UPDATE questions SET question = ?, a = ?, b = ?, c = ?, d = ?,
metadata = ?, processing_status = ? WHERE id = ?` per processed
question, run in order inside one transaction
(`metadata` is stored as `q.metadata || ''`). -/
def updateBatch (processed : List ProcessedQuestion) (status : String)
    (db : List Row) : List Row :=
  processed.foldl (fun acc q =>
    acc.map (fun r =>
      if r.id == q.id then
        { r with question := q.question, a := q.a, b := q.b, c := q.c, d := q.d,
                 metadata := q.metadata.getD "", status := status }
      else r)) db

/-- Source `DatabaseClient.markBatchFailed(questionIds)`:
`UPDATE questions SET processing_status = 'unprocessed' WHERE id IN (...)`
(no-op on an empty id list). -/
def markBatchFailed (questionIds : List String) (db : List Row) : List Row :=
  if questionIds.isEmpty then db
  else db.map (fun r =>
    if questionIds.contains r.id then { r with status := "unprocessed" } else r)

/-- Source `DatabaseClient.getUnprocessedCount()`:
`SELECT COUNT(*) FROM questions WHERE processing_status = 'unprocessed'`. -/
def getUnprocessedCount (db : List Row) : Nat :=
  (db.filter (fun r => r.status == "unprocessed")).length

/-- Source `DatabaseClient.getTotalQuestions()`: `SELECT COUNT(*) FROM questions`. -/
def getTotalQuestions (db : List Row) : Nat := db.length

/-! ## migrate.ts -/

/-- Count of rows currently claimed (`processing_status = 'processing'`). -/
def processingCount (db : List Row) : Nat :=
  (db.filter (fun r => r.status == "processing")).length

/-- The store together with the schema fact `migrateDatabase` inspects
(`PRAGMA table_info`: whether the `processing_status` column exists). -/
structure Store where
  hasStatusColumn : Bool
  rows : List Row
  deriving Repr, DecidableEq

/-- Source `migrateDatabase(db)`: if the `processing_status` column already
exists, do nothing; otherwise add it with default `unprocessed`
(the `ALTER TABLE` default) and then
`UPDATE questions SET processing_status = 'completed'
WHERE b IS NOT NULL AND b != '' AND b != ' '`. -/
def migrateDatabase (s : Store) : Store :=
  if s.hasStatusColumn then s
  else
    { hasStatusColumn := true
      rows := s.rows.map (fun r =>
        if r.b != "" && r.b != " " then { r with status := "completed" }
        else { r with status := "unprocessed" }) }

/-- Source `resetStuckBatches(db)`:
`UPDATE questions SET processing_status = 'unprocessed'
WHERE processing_status = 'processing'`. -/
def resetStuckBatches (s : Store) : Store :=
  { s with rows := s.rows.map (fun r =>
      if r.status == "processing" then { r with status := "unprocessed" } else r) }

/-- The prelude of `QuestionProcessor.run()`: `migrateDatabase(db)` then
`resetStuckBatches(db)`, both completed before any worker is launched
(workers are only created further down in `run`). -/
def runPrelude (s : Store) : Store :=
  resetStuckBatches (migrateDatabase s)

/-! ## GeminiClient credential pool (src/gemini.ts) -/

/-- Source `GeminiClient.KEY_ROTATION_DELAY_MS = 5000` (5 seconds). -/
def KEY_ROTATION_DELAY_MS : Nat := 5000

/-- The credential-pool part of `GeminiClient`: the ordered key list
(`apiKeys`), `currentKeyIndex`, and the `exhaustedKeys` index set. -/
structure GeminiState where
  apiKeys : List String
  currentKeyIndex : Nat
  exhaustedKeys : Finset Nat
  deriving DecidableEq

/-- Source `new GeminiClient(apiKeys)`: `currentKeyIndex = 0`, no exhausted keys. -/
def GeminiState.init (apiKeys : List String) : GeminiState :=
  { apiKeys := apiKeys, currentKeyIndex := 0, exhaustedKeys := ∅ }

/-- Source `GeminiClient.markKeyExhausted()`:
`this.exhaustedKeys.add(this.currentKeyIndex)`. -/
def markKeyExhausted (g : GeminiState) : GeminiState :=
  { g with exhaustedKeys := insert g.currentKeyIndex g.exhaustedKeys }

/-- Source `GeminiClient.hasAvailableKeys()`:
`this.exhaustedKeys.size < this.apiKeys.length`. -/
def hasAvailableKeys (g : GeminiState) : Bool :=
  g.exhaustedKeys.card < g.apiKeys.length

/-- The `do/while` search loop of `GeminiClient.rotateKey`.  One call of
`rotateAux` is one loop iteration: advance the index
(`currentKeyIndex = (currentKeyIndex + 1) % apiKeys.length`) and, unless
the `attempts > apiKeys.length` guard fires (here: `fuel = 0`, the
`attempts` counter counted down instead of up), test
`exhaustedKeys.has(currentKeyIndex)` and loop while it holds. -/
def rotateAux (exhausted : Finset Nat) (len : Nat) : Nat → Nat → Bool × Nat
  | fuel, idx =>
    let idx' := (idx + 1) % len
    match fuel with
    | 0 => (false, idx')
    | fuel + 1 => if idx' ∈ exhausted then rotateAux exhausted len fuel idx' else (true, idx')

/-- Source `GeminiClient.rotateKey()`: return `false` immediately when
`exhaustedKeys.size >= apiKeys.length`; otherwise run the search loop
(at most `apiKeys.length` membership tests, exactly the source's
`attempts` bound) and return whether a non-exhausted key was found,
with `currentKeyIndex` left at the loop's final index.  The 5-second
inter-rotation sleep the source performs before returning `true` is
emitted by the caller as a `sleepEv KEY_ROTATION_DELAY_MS` event. -/
def rotateKey (g : GeminiState) : Bool × GeminiState :=
  if g.apiKeys.length ≤ g.exhaustedKeys.card then (false, g)
  else
    let r := rotateAux g.exhaustedKeys g.apiKeys.length g.apiKeys.length g.currentKeyIndex
    (r.1, { g with currentKeyIndex := r.2 })

/-- Well-formed credential-pool state: the current index is in range and
only in-range indices have been marked exhausted.  Both hold for every
state reachable from `GeminiState.init` on a non-empty key list, since
`markKeyExhausted` inserts the current index and rotation keeps the
index below `apiKeys.length`. -/
def GeminiWf (g : GeminiState) : Prop :=
  g.currentKeyIndex < g.apiKeys.length ∧
    ∀ i ∈ g.exhaustedKeys, i < g.apiKeys.length

instance (g : GeminiState) : Decidable (GeminiWf g) := by
  unfold GeminiWf; infer_instance

/-! ## Validator (src/validator.ts) -/

/-- JavaScript truthiness of the optional `metadata` string field:
`undefined` and `''` are falsy. -/
def metadataTruthy (m : Option String) : Bool :=
  match m with
  | none => false
  | some s => s != ""

/-- Source `Validator.sanitizeBatch(questions)`: for each question whose
(truthy) `metadata` fails `JSON.parse`, strip the field
(`metadata: undefined`); keep everything else.  `jsonOk` is the external
`JSON.parse`-succeeds predicate. -/
def sanitizeBatch (jsonOk : String → Bool) (questions : List ProcessedQuestion) :
    List ProcessedQuestion :=
  questions.map (fun q =>
    match q.metadata with
    | some s => if s != "" && !jsonOk s then { q with metadata := none } else q
    | none => q)

/-- JavaScript `String.prototype.trim()`: strip whitespace from both
ends (written over the character list so it computes by kernel
reduction; Lean's `Char.isWhitespace` stands in for the JS `\s` class,
which agrees on the ASCII whitespace the messages here contain). -/
def jsTrim (s : String) : String :=
  ⟨((s.toList.dropWhile Char.isWhitespace).reverse.dropWhile
      Char.isWhitespace).reverse⟩

/-- Source `Validator.validate(question)`: the four options must be pairwise
distinct (`new Set(options).size === 4`), each option non-blank
(`!option || option.trim().length === 0` fails), and truthy `metadata`
must parse as JSON.  Returns `none` for pass or `some reason` for
fail. -/
def validate (jsonOk : String → Bool) (q : ProcessedQuestion) : Option String :=
  let options := [q.a, q.b, q.c, q.d]
  if options.dedup.length != 4 then
    some ("Options not unique for question " ++ q.id)
  else if options.any (fun o => (jsTrim o).length == 0) then
    some ("Empty option found for question " ++ q.id)
  else if metadataTruthy q.metadata && !jsonOk (q.metadata.getD "") then
    some ("Invalid JSON metadata for question " ++ q.id)
  else none

/-- Source `Validator.validateBatch(questions)`: first failing question's
reason, or pass. -/
def validateBatch (jsonOk : String → Bool) :
    List ProcessedQuestion → Option String
  | [] => none
  | q :: qs =>
    match validate jsonOk q with
    | some reason => some reason
    | none => validateBatch jsonOk qs

/-! ## ProgressTracker (src/progress.ts) -/

/-- Per-worker tallies (`WorkerStats`). -/
structure WorkerStats where
  completed : Nat
  failed : Nat
  questionsProcessed : Nat
  deriving Repr, DecidableEq

/-- Source `ProgressTracker`: aggregate `stats` fields plus the per-worker map
(worker `i + 1` is entry `i` of `workerStats`); the display-throttling
timestamps are elided. -/
structure ProgressTracker where
  batchNumber : Nat
  totalBatches : Nat
  questionsProcessed : Nat
  totalQuestions : Nat
  failedBatches : Nat
  workerStats : List WorkerStats
  deriving Repr, DecidableEq

/-- Source `new ProgressTracker(totalQuestions, unprocessedCount, batchSize,
workerCount)`: `totalBatches = ceil(unprocessed / batchSize)`,
`questionsProcessed = totalQuestions - unprocessedCount`, one zeroed
`WorkerStats` per worker id `1..workerCount`. -/
def ProgressTracker.init (totalQuestions unprocessedCount batchSize workerCount : Nat) :
    ProgressTracker :=
  { batchNumber := 0
    totalBatches := (unprocessedCount + batchSize - 1) / batchSize
    questionsProcessed := totalQuestions - unprocessedCount
    totalQuestions := totalQuestions
    failedBatches := 0
    workerStats := List.replicate workerCount ⟨0, 0, 0⟩ }

/-- Source `ProgressTracker.startBatch(workerId)`: `stats.batchNumber++`. -/
def ProgressTracker.startBatch (p : ProgressTracker) (_workerId : Nat) : ProgressTracker :=
  { p with batchNumber := p.batchNumber + 1 }

/-- Source `ProgressTracker.completeBatch(workerId, questionsInBatch)`:
aggregate `questionsProcessed += questionsInBatch`; the worker's entry
gets `completed++` and `questionsProcessed += questionsInBatch`. -/
def ProgressTracker.completeBatch (p : ProgressTracker) (workerId questionsInBatch : Nat) :
    ProgressTracker :=
  { p with
    questionsProcessed := p.questionsProcessed + questionsInBatch
    workerStats := p.workerStats.modify
      (fun w => { w with completed := w.completed + 1,
                         questionsProcessed := w.questionsProcessed + questionsInBatch })
      (workerId - 1) }

/-- Source `ProgressTracker.failBatch(workerId)`: aggregate `failedBatches++`;
the worker's entry gets `failed++`. -/
def ProgressTracker.failBatch (p : ProgressTracker) (workerId : Nat) : ProgressTracker :=
  { p with
    failedBatches := p.failedBatches + 1
    workerStats := p.workerStats.modify
      (fun w => { w with failed := w.failed + 1 }) (workerId - 1) }

/-- Source `ProgressTracker.getBatchNumber()`. -/
def ProgressTracker.getBatchNumber (p : ProgressTracker) : Nat := p.batchNumber

/-- One synchronized call into the shared `ProgressTracker` (the calls
the workers make: `startBatch`, `completeBatch`, `failBatch`). -/
inductive ProgressOp where
  | start (workerId : Nat)
  | complete (workerId : Nat) (questionsInBatch : Nat)
  | fail (workerId : Nat)
  deriving Repr, DecidableEq

/-- The worker id carried by a progress call. -/
def ProgressOp.workerId : ProgressOp → Nat
  | .start w => w
  | .complete w _ => w
  | .fail w => w

/-- Apply one progress call. -/
def applyProgressOp (p : ProgressTracker) : ProgressOp → ProgressTracker
  | .start w => p.startBatch w
  | .complete w q => p.completeBatch w q
  | .fail w => p.failBatch w

/-- Apply a sequence of progress calls in order. -/
def applyProgressOps (p : ProgressTracker) (ops : List ProgressOp) : ProgressTracker :=
  ops.foldl applyProgressOp p

/-! ## QuestionProcessor worker loop (processor.ts) -/

/-- Source `QuestionProcessor.MAX_503_RETRIES = 10`. -/
def MAX_503_RETRIES : Nat := 10

/-- Source `QuestionProcessor.RETRY_DELAY_MS = 30000` (30 seconds). -/
def RETRY_DELAY_MS : Nat := 30000

/-- JavaScript `errorMessage.includes(pat)`: substring containment. -/
def strContains (s pat : String) : Bool :=
  decide (pat.toList <:+: s.toList)

/-- The regular expression `/5\d{2}/` over a character list: some
position holds `'5'` followed by two decimal digits. -/
def hasFiveXX : List Char → Bool
  | c :: a :: b :: rest =>
    (c == '5' && a.isDigit && b.isDigit) || hasFiveXX (a :: b :: rest)
  | _ => false

/-- Source `/5\d{2}/.test(errorMessage)`. -/
def regex5xxTest (s : String) : Bool := hasFiveXX s.toList

/-- Source `QuestionProcessor.isFatalError(errorMessage)`: `503` messages are
never fatal (handled by the retry path); otherwise fatal iff the
message contains `'429'`, or contains `'status'` and matches `/5\d{2}/`,
or contains `'network'`, `'ECONNREFUSED'` or `'ENOTFOUND'`. -/
def isFatalError (msg : String) : Bool :=
  if strContains msg "503" then false
  else
    strContains msg "429" ||
    (strContains msg "status" && regex5xxTest msg) ||
    strContains msg "network" ||
    strContains msg "ECONNREFUSED" ||
    strContains msg "ENOTFOUND"

/-- The worker's length-mismatch error text:
`` `Expected ${batch.length} questions, got ${processed.length}` ``. -/
def mismatchMsg (expected got : Nat) : String :=
  "Expected " ++ toString expected ++ " questions, got " ++ toString got

/-- The observable actions of one worker-loop iteration, in program
order: the per-batch log line, a `updateBatch .. 'completed'` commit, a
`markBatchFailed` release, a `sleep(ms)`, and the failure log lines. -/
inductive Ev where
  | logBatchEv (batchNumber : Nat) (ids : List String)
  | commitEv (ids : List String)
  | releaseEv (ids : List String)
  | sleepEv (ms : Nat)
  | logErrorEv (batchNumber : Nat) (ids : List String) (msg : String)
  | logValidationEv (batchNumber : Nat) (ids : List String) (reason : String)
  deriving Repr, DecidableEq

/-- How one worker-loop iteration ends: go around the loop again
(`continue` / falling out of the try-catch), break out because the
claim came back empty (`noWork`), or `process.exit(1)` (`exited`). -/
inductive StepResult where
  | continueLoop
  | noWork
  | exited
  deriving Repr, DecidableEq

/-- The outcome of one `gemini.processBatch(batch)` dispatch: a parsed
result list, or a thrown error with its message. -/
inductive Outcome where
  | ok (processed : List ProcessedQuestion)
  | err (msg : String)
  deriving Repr, DecidableEq

/-- The configuration a worker iteration reads (`config.batchSize`,
`config.delayMs`). -/
structure WorkerConfig where
  batchSize : Nat
  delayMs : Nat
  deriving Repr, DecidableEq

/-- The mutable state one worker-loop iteration touches: the store, the
shared `stopSignal`, the shared `consecutive503Errors` counter and the
shared `ProgressTracker`. -/
structure WState where
  db : List Row
  stopSignal : Bool
  consecutive503 : Nat
  progress : ProgressTracker
  deriving Repr, DecidableEq

/-- The worker's `catch (error)` block.  In source order: a message
containing `'503'` increments `consecutive503Errors` and either
(at the cap) logs, sets `stopSignal` and calls `process.exit(1)` -
without releasing the batch - or (under the cap) logs, releases
(`markBatchFailed`), tallies the failure, sleeps `RETRY_DELAY_MS` and
`continue`s, skipping the normal inter-batch delay; a message
classified by `isFatalError` logs, sets `stopSignal` and exits -
again without releasing; anything else logs, releases, tallies and
falls through to the normal inter-batch sleep. -/
def handleWorkerError (cfg : WorkerConfig) (workerId : Nat) (msg : String)
    (ids : List String) (st : WState) : WState × List Ev × StepResult :=
  let bn := st.progress.getBatchNumber
  if strContains msg "503" then
    let c' := st.consecutive503 + 1
    if MAX_503_RETRIES ≤ c' then
      ({ st with consecutive503 := c', stopSignal := true },
       [Ev.logErrorEv bn ids msg], .exited)
    else
      ({ st with consecutive503 := c',
                 db := markBatchFailed ids st.db,
                 progress := st.progress.failBatch workerId },
       [Ev.logErrorEv bn ids msg, Ev.releaseEv ids, Ev.sleepEv RETRY_DELAY_MS],
       .continueLoop)
  else if isFatalError msg then
    ({ st with stopSignal := true }, [Ev.logErrorEv bn ids msg], .exited)
  else
    ({ st with db := markBatchFailed ids st.db,
               progress := st.progress.failBatch workerId },
     [Ev.logErrorEv bn ids msg, Ev.releaseEv ids, Ev.sleepEv cfg.delayMs],
     .continueLoop)

/-- One iteration of `QuestionProcessor.worker(workerId)`'s `while`
body, given the dispatch outcome for this batch.  Mirrors the source:
claim a batch (`claimBatch`), break on empty; `startBatch` and log;
on a successful dispatch check the length precondition (a mismatch
throws into the catch block), sanitize, validate - an invalid batch is
released and tallied, a valid one is committed via
`updateBatch(sanitized, 'completed')`, tallied, and resets
`consecutive503Errors`; a thrown error goes through
`handleWorkerError`; the iterations that fall out of the try-catch
sleep `config.delayMs` before looping. -/
def workerBody (cfg : WorkerConfig) (jsonOk : String → Bool) (workerId : Nat)
    (st : WState) (outcome : Outcome) : WState × List Ev × StepResult :=
  let claimed := claimBatch cfg.batchSize st.db
  let batch := claimed.1
  if batch.isEmpty then ({ st with db := claimed.2 }, [], .noWork)
  else
    let ids := batch.map (·.id)
    let st1 := { st with db := claimed.2, progress := st.progress.startBatch workerId }
    let bn := st1.progress.getBatchNumber
    match outcome with
    | .err msg =>
      let h := handleWorkerError cfg workerId msg ids st1
      (h.1, Ev.logBatchEv bn ids :: h.2.1, h.2.2)
    | .ok processed =>
      if processed.length != batch.length then
        let h := handleWorkerError cfg workerId
          (mismatchMsg batch.length processed.length) ids st1
        (h.1, Ev.logBatchEv bn ids :: h.2.1, h.2.2)
      else
        let sanitized := sanitizeBatch jsonOk processed
        match validateBatch jsonOk sanitized with
        | some reason =>
          ({ st1 with db := markBatchFailed ids st1.db,
                      progress := st1.progress.failBatch workerId },
           [Ev.logBatchEv bn ids, Ev.logValidationEv bn ids reason,
            Ev.releaseEv ids, Ev.sleepEv cfg.delayMs],
           .continueLoop)
        | none =>
          ({ st1 with db := updateBatch sanitized "completed" st1.db,
                      progress := st1.progress.completeBatch workerId batch.length,
                      consecutive503 := 0 },
           [Ev.logBatchEv bn ids, Ev.commitEv (sanitized.map (·.id)),
            Ev.sleepEv cfg.delayMs],
           .continueLoop)

/-! ## Sequences of whole queue operations

The store is the only synchronization point, and each of
`claimBatch` / `updateBatch` / `markBatchFailed` runs as one SQLite
transaction, so an interleaving of workers is a sequence of whole
operations on the shared table.  `outstanding` records the id lists of
the batches that have been claimed and not yet committed or released. -/

/-- One whole store operation: a `claimBatch(n)`, a commit of a
previously claimed batch (`updateBatch(results, 'completed')`, where
`results` is whatever the service returned for it), or a release of a
previously claimed batch (`markBatchFailed(batchIds)`). -/
inductive QueueOp where
  | claim (n : Nat)
  | commit (batchIds : List String) (results : List ProcessedQuestion)
  | release (batchIds : List String)
  deriving Repr, DecidableEq

/-- The shared store plus the id lists of the currently outstanding
(claimed, not yet committed or released) batches. -/
structure QueueState where
  db : List Row
  outstanding : List (List String)
  deriving Repr, DecidableEq

/-- Apply one whole operation.  A claim that returns a non-empty batch
makes that batch outstanding; committing or releasing resolves one
outstanding batch (commit and release are only ever invoked by the
worker holding the batch, so they are guarded on the batch being
outstanding). -/
def applyQueueOp (s : QueueState) : QueueOp → QueueState
  | .claim n =>
    let r := claimBatch n s.db
    { db := r.2
      outstanding :=
        if r.1.isEmpty then s.outstanding else s.outstanding ++ [r.1.map Row.id] }
  | .commit batchIds results =>
    if batchIds ∈ s.outstanding then
      { db := updateBatch results "completed" s.db
        outstanding := s.outstanding.erase batchIds }
    else s
  | .release batchIds =>
    if batchIds ∈ s.outstanding then
      { db := markBatchFailed batchIds s.db
        outstanding := s.outstanding.erase batchIds }
    else s

/-- Run a sequence of whole operations from a state. -/
def runQueueOps (s : QueueState) (ops : List QueueOp) : QueueState :=
  ops.foldl applyQueueOp s

/-- The queue-protocol invariant: the outstanding claimed batches are
pairwise disjoint id sets, and no row whose id belongs to an
outstanding batch is `unprocessed` (so it can never be selected by a
further claim). -/
def QueueInv (s : QueueState) : Prop :=
  s.outstanding.Pairwise (fun b1 b2 => ∀ id ∈ b1, id ∉ b2) ∧
    ∀ b ∈ s.outstanding, ∀ id ∈ b, ∀ r ∈ s.db, r.id = id → r.status ≠ "unprocessed"

/-! ## The current processor's CredentialExhausted handling -/

/-- Result of handling a quota-exceeded dispatch failure: the credential
pool, the store, the emitted events, whether the pool-wide stop was
signalled, and how the iteration ends. -/
structure CredResult where
  gemini : GeminiState
  db : List Row
  events : List Ev
  poolStop : Bool
  result : StepResult
  deriving DecidableEq

/-- Modelled from the spec: the current processor's handling of a
quota-exceeded (HTTP 429-equivalent) dispatch failure.  Missing from
the dump: the processor revision that integrates the credential pool —
the dump's processor is a stale single-key revision (it passes
`config.apiKey` to `GeminiClient` while the current `gemini.ts` /
`config.ts` take a key list, and nothing in the dump calls
`markKeyExhausted` / `rotateKey` / `hasAvailableKeys`, though the
README documents the rotation behavior).  Per spec section 4.3,
`CredentialExhausted` means: mark the current credential exhausted in
the CredentialPool; if any credential remains, rotate (with a fixed
inter-rotation delay to avoid hammering the service) and release, then
continue; if none remain, release, then signal pool-wide stop and
terminate as `Fatal`.  The calls into the credential pool are the
real `gemini.ts` embeddings above. -/
def handleCredentialExhausted (g : GeminiState) (ids : List String)
    (db : List Row) : CredResult :=
  let g1 := markKeyExhausted g
  if hasAvailableKeys g1 then
    let r := rotateKey g1
    { gemini := r.2
      db := markBatchFailed ids db
      events := [Ev.sleepEv KEY_ROTATION_DELAY_MS, Ev.releaseEv ids]
      poolStop := false
      result := .continueLoop }
  else
    { gemini := g1
      db := markBatchFailed ids db
      events := [Ev.releaseEv ids]
      poolStop := true
      result := .exited }

/-- The worker state right after a successful non-empty claim: the
store as the claim transaction left it, `startBatch` tallied. -/
def workerClaimState (cfg : WorkerConfig) (workerId : Nat) (st : WState) : WState :=
  { st with db := (claimBatch cfg.batchSize st.db).2
            progress := st.progress.startBatch workerId }

/-- The ids of the batch a worker iteration claims. -/
def workerBatchIds (cfg : WorkerConfig) (st : WState) : List String :=
  (claimBatch cfg.batchSize st.db).1.map Row.id

/-- Number of `commitEv` events in a trace. -/
def countCommits (evs : List Ev) : Nat :=
  (evs.filter fun e => match e with | .commitEv _ => true | _ => false).length

/-- Number of `releaseEv` events in a trace. -/
def countReleases (evs : List Ev) : Nat :=
  (evs.filter fun e => match e with | .releaseEv _ => true | _ => false).length

/-- Whether an event is a sleep. -/
def isSleepEv : Ev → Bool
  | .sleepEv _ => true
  | _ => false

/-! ## Concrete sample values

A small concrete table, configuration and credential pool, used to
instantiate the theorems below at explicit inputs. -/

/-- An unprocessed sample row. -/
def rowU1 : Row := ⟨"q1", "clue one", "A1", "", "", "", "", "unprocessed"⟩

/-- A second unprocessed sample row. -/
def rowU2 : Row := ⟨"q2", "clue two", "A2", "", "", "", "", "unprocessed"⟩

/-- An already-completed sample row. -/
def rowC3 : Row := ⟨"q3", "clue three", "A3", "B3", "C3", "D3", "", "completed"⟩

/-- A sample row left `processing` by a crashed run. -/
def rowP4 : Row := ⟨"q4", "clue four", "A4", "", "", "", "", "processing"⟩

/-- The sample table. -/
def sampleDb : List Row := [rowU1, rowU2, rowC3, rowP4]

/-- A valid processed question for `q1`. -/
def pqGood1 : ProcessedQuestion := ⟨"q1", "What is one?", "A1", "B1", "C1", "D1", none⟩

/-- A valid processed question for `q2`. -/
def pqGood2 : ProcessedQuestion := ⟨"q2", "What is two?", "A2", "B2", "C2", "D2", none⟩

/-- A sample worker configuration: batch size 2, 3000 ms delay. -/
def sampleCfg : WorkerConfig := ⟨2, 3000⟩

/-- A sample worker-visible state over `sampleDb`. -/
def sampleState : WState :=
  ⟨sampleDb, false, 0, ProgressTracker.init 4 2 2 1⟩

/-- A sample credential pool: three keys, the first two exhausted. -/
def sampleGemini : GeminiState := ⟨["k1", "k2", "k3"], 0, {0, 1}⟩

/-! ## Lemmas about `claimBatch` -/

/-- Source `claimBatch` on an empty id selection. -/
lemma claimBatch_eq_nil {n : Nat} {db : List Row}
    (h : (claimIds n db).isEmpty = true) : claimBatch n db = ([], db) := by
  simp [claimBatch, h]

/-- The batch returned by `claimBatch` on a non-empty id selection. -/
lemma claimBatch_fst_pos {n : Nat} {db : List Row}
    (h : (claimIds n db).isEmpty = false) :
    (claimBatch n db).1 =
      (claimMark (claimIds n db) db).filter
        (fun r => (claimIds n db).contains r.id) := by
  simp [claimBatch, h]

/-- The table left by `claimBatch` on a non-empty id selection. -/
lemma claimBatch_snd_pos {n : Nat} {db : List Row}
    (h : (claimIds n db).isEmpty = false) :
    (claimBatch n db).2 = claimMark (claimIds n db) db := by
  simp [claimBatch, h]

/-- Ids are preserved by the marking update. -/
lemma claimMark_id (ids : List String) (r : Row) :
    (if ids.contains r.id then { r with status := "processing" } else r).id = r.id := by
  split <;> rfl

/-- Every row returned by `claimBatch` is marked `processing` and is
present (in that marked form) in the table the transaction leaves
behind. -/
lemma claimBatch_mem_status {n : Nat} {db : List Row} :
    ∀ q ∈ (claimBatch n db).1, q.status = "processing" ∧ q ∈ (claimBatch n db).2 := by
  intro q hq
  by_cases h : (claimIds n db).isEmpty
  · rw [claimBatch_eq_nil h] at hq
    simp at hq
  · rw [claimBatch_fst_pos (by simpa using h)] at hq
    rw [claimBatch_snd_pos (by simpa using h)]
    obtain ⟨hmem, hcont⟩ := List.mem_filter.mp hq
    refine ⟨?_, hmem⟩
    obtain ⟨r, _hr, rfl⟩ := List.mem_map.mp hmem
    by_cases hc : (claimIds n db).contains r.id
    · rw [if_pos hc]
    · rw [claimMark_id] at hcont
      simp only [hc] at hcont
      cases hcont

/-- The marking update preserves the id column. -/
lemma claimMark_map_id (ids : List String) (db : List Row) :
    (claimMark ids db).map Row.id = db.map Row.id := by
  simp only [claimMark, List.map_map]
  exact List.map_congr_left (fun r _ => claimMark_id ids r)

/-- The table `claimBatch` leaves behind has the same number of rows. -/
lemma claimBatch_length_db {n : Nat} {db : List Row} :
    (claimBatch n db).2.length = db.length := by
  by_cases h : (claimIds n db).isEmpty
  · rw [claimBatch_eq_nil h]
  · rw [claimBatch_snd_pos (by simpa using h)]
    simp [claimMark]

/-- When no row is `unprocessed`, `claimBatch` returns the empty batch
and leaves the table unchanged. -/
lemma claimBatch_no_work {n : Nat} {db : List Row}
    (h : ∀ r ∈ db, r.status ≠ "unprocessed") : claimBatch n db = ([], db) := by
  apply claimBatch_eq_nil
  have hfilter : db.filter (fun r => r.status == "unprocessed") = [] := by
    rw [List.filter_eq_nil_iff]
    intro r hr
    simpa using h r hr
  simp [claimIds, hfilter]

/-- Every selected id belongs to an `unprocessed` row of the table. -/
lemma claimIds_origin {n : Nat} {db : List Row} :
    ∀ id ∈ claimIds n db, ∃ r ∈ db, r.id = id ∧ r.status = "unprocessed" := by
  intro id hid
  obtain ⟨r, hr, rfl⟩ := List.mem_map.mp hid
  have hr' : r ∈ db.filter (fun r => r.status == "unprocessed") :=
    List.mem_of_mem_take hr
  obtain ⟨hrdb, hst⟩ := List.mem_filter.mp hr'
  exact ⟨r, hrdb, rfl, by simpa using hst⟩

/-- A row whose id was not selected passes through `claimBatch`
untouched (same position, same full row). -/
lemma claimBatch_untouched {n : Nat} {db : List Row} {i : Nat} {r : Row}
    (hi : db[i]? = some r) (hr : ¬ r.id ∈ claimIds n db) :
    (claimBatch n db).2[i]? = some r := by
  by_cases h : (claimIds n db).isEmpty
  · rw [claimBatch_eq_nil h]
    exact hi
  · rw [claimBatch_snd_pos (by simpa using h)]
    unfold claimMark
    rw [List.getElem?_map, hi, Option.map_some']
    have hcne : ¬ ((claimIds n db).contains r.id = true) := by simpa using hr
    rw [if_neg hcne]

/-- Every id that was selected does show up among the ids of the
returned batch (the step-3 `SELECT` finds at least the row the id came
from). -/
lemma claimIds_sub_batch {n : Nat} {db : List Row} :
    ∀ id ∈ claimIds n db, id ∈ (claimBatch n db).1.map Row.id := by
  intro id hid
  have hne : (claimIds n db).isEmpty = false := by
    cases hcl : claimIds n db
    · rw [hcl] at hid
      cases hid
    · rfl
  rw [claimBatch_fst_pos hne]
  obtain ⟨r, hrdb, hrid, _⟩ := claimIds_origin id hid
  subst hrid
  have hc : (claimIds n db).contains r.id = true := by simpa using hid
  refine List.mem_map.mpr ⟨if (claimIds n db).contains r.id then
    { r with status := "processing" } else r, ?_, claimMark_id _ r⟩
  refine List.mem_filter.mpr ⟨List.mem_map.mpr ⟨r, hrdb, rfl⟩, ?_⟩
  rw [claimMark_id]
  simpa using hid

/-- The selected ids form a sublist of the table's id column. -/
lemma claimIds_sublist {n : Nat} {db : List Row} :
    (claimIds n db).Sublist (db.map Row.id) :=
  ((List.take_sublist _ _).trans (List.filter_sublist _)).map _

/-- With a duplicate-free id column (`id TEXT PRIMARY KEY`), the batch
holds at most `batchSize` rows. -/
lemma claimBatch_length_le {n : Nat} {db : List Row}
    (hN : (db.map Row.id).Nodup) : (claimBatch n db).1.length ≤ n := by
  by_cases h : (claimIds n db).isEmpty
  · rw [claimBatch_eq_nil h]
    exact Nat.zero_le n
  · rw [claimBatch_fst_pos (by simpa using h)]
    set batch := (claimMark (claimIds n db) db).filter
      (fun r => (claimIds n db).contains r.id) with hbatch
    have hsub : (batch.map Row.id).Sublist (db.map Row.id) := by
      calc (batch.map Row.id).Sublist ((claimMark (claimIds n db) db).map Row.id) :=
            (List.filter_sublist _).map _
        _ = db.map Row.id := claimMark_map_id _ _
    have hnodup : (batch.map Row.id).Nodup := hsub.nodup hN
    have hsubset : batch.map Row.id ⊆ claimIds n db := by
      intro x hx
      obtain ⟨q, hq, rfl⟩ := List.mem_map.mp hx
      have := (List.mem_filter.mp hq).2
      simpa using this
    calc batch.length = (batch.map Row.id).length := (List.length_map _ _).symm
      _ ≤ (claimIds n db).length :=
          (List.subperm_of_subset hnodup hsubset).length_le
      _ ≤ n := by
          simp [claimIds]

/-- With a duplicate-free id column, every returned row is a row that
was `unprocessed` before the call, returned with its full payload and
its status flipped to `processing`. -/
lemma claimBatch_origin {n : Nat} {db : List Row} (hN : (db.map Row.id).Nodup) :
    ∀ q ∈ (claimBatch n db).1, ∃ r ∈ db, r.id = q.id ∧ r.status = "unprocessed" ∧
      q = { r with status := "processing" } := by
  intro q hq
  by_cases h : (claimIds n db).isEmpty
  · rw [claimBatch_eq_nil h] at hq
    cases hq
  · rw [claimBatch_fst_pos (by simpa using h)] at hq
    obtain ⟨hmem, hcont⟩ := List.mem_filter.mp hq
    obtain ⟨r0, hr0, rfl⟩ := List.mem_map.mp hmem
    rw [claimMark_id] at hcont
    have hidmem : r0.id ∈ claimIds n db := by simpa using hcont
    obtain ⟨r, hrdb, hrid, hrst⟩ := claimIds_origin r0.id hidmem
    have : r = r0 := List.inj_on_of_nodup_map hN hrdb hr0 hrid
    subst this
    refine ⟨r, hrdb, ?_, hrst, ?_⟩
    · rw [claimMark_id]
    · rw [if_pos (by simpa using hidmem)]

/-! ## C2: the claim contract -/

/-- Claim C2: for every store state and every `n`, `claimBatch(n)` returns
at most `n` items, each of which had status `unprocessed` before the
call and has status `processing` (claimed) afterwards, with its full
row payload returned; rows not in the returned batch keep their status
(indeed their whole row); and when no row has status `unprocessed`,
`claimBatch` returns the empty batch (not an error) and leaves the
store unchanged.  The store is well-formed: `id` is the primary key, so
the id column is duplicate-free. -/
theorem claimBatch_contract (n : Nat) (db : List Row)
    (hN : (db.map Row.id).Nodup) :
    (claimBatch n db).1.length ≤ n ∧
    (∀ q ∈ (claimBatch n db).1, q.status = "processing" ∧ q ∈ (claimBatch n db).2 ∧
      ∃ r ∈ db, r.id = q.id ∧ r.status = "unprocessed" ∧
        q = { r with status := "processing" }) ∧
    (claimBatch n db).2.length = db.length ∧
    (∀ (i : Nat) (r : Row), db[i]? = some r → r.id ∉ (claimBatch n db).1.map Row.id →
      (claimBatch n db).2[i]? = some r) ∧
    ((∀ r ∈ db, r.status ≠ "unprocessed") → claimBatch n db = ([], db)) := by
  refine ⟨claimBatch_length_le hN, ?_, claimBatch_length_db, ?_, claimBatch_no_work⟩
  · intro q hq
    obtain ⟨hst, hmem⟩ := claimBatch_mem_status q hq
    exact ⟨hst, hmem, claimBatch_origin hN q hq⟩
  · intro i r hi hr
    refine claimBatch_untouched hi (fun hmem => hr ?_)
    exact claimIds_sub_batch r.id hmem

/-- Witness for C2: instantiated at the sample table with batch size 1:
the id column is duplicate-free and the batch has at most one row. -/
theorem claimBatch_contract_witness :
    (sampleDb.map Row.id).Nodup ∧ (claimBatch 1 sampleDb).1.length ≤ 1 :=
  ⟨by decide, (claimBatch_contract 1 sampleDb (by decide)).1⟩

/-! ## C3: crash recovery -/

/-- The reset's count bookkeeping: afterwards the `unprocessed` count
has grown by exactly the number of `processing` rows. -/
lemma reset_unprocessed_count (rows : List Row) :
    getUnprocessedCount (rows.map (fun r =>
        if r.status == "processing" then { r with status := "unprocessed" } else r)) =
      getUnprocessedCount rows + processingCount rows := by
  induction rows with
  | nil => rfl
  | cons r rows ih =>
    unfold getUnprocessedCount processingCount at ih ⊢
    by_cases hp : r.status = "processing"
    · simp only [List.map_cons, List.filter_cons, hp] at ih ⊢
      simp at ih ⊢
      omega
    · by_cases hu : r.status = "unprocessed"
      · simp only [List.map_cons, List.filter_cons, hp, hu] at ih ⊢
        simp [hp, hu] at ih ⊢
        omega
      · simp only [List.map_cons, List.filter_cons] at ih ⊢
        simp [hp, hu] at ih ⊢
        omega

/-- After the reset no row is left `processing`. -/
lemma reset_no_processing (rows : List Row) :
    processingCount (rows.map (fun r =>
        if r.status == "processing" then { r with status := "unprocessed" } else r)) = 0 := by
  unfold processingCount
  rw [List.length_eq_zero, List.filter_eq_nil_iff]
  intro q hq
  obtain ⟨r, _, rfl⟩ := List.mem_map.mp hq
  by_cases hp : r.status = "processing" <;> simp [hp]

/-- Claim C3: for every store state in which exactly `N` rows have status
`processing`, running `resetStuckBatches` sets all `N` of them to
`unprocessed`, changes no other row, and increases the `unprocessed`
count by exactly `N` (here `N = processingCount s.rows`); and the
processor's startup sequence (`migrateDatabase` then
`resetStuckBatches`, both before any worker is launched) leaves no row
`processing`, so no item left claimed by a crashed run is still claimed
when the first claim happens. -/
theorem resetStuckBatches_recovery (s : Store) :
    (resetStuckBatches s).rows.length = s.rows.length ∧
    (∀ (i : Nat) (r : Row), s.rows[i]? = some r →
      (resetStuckBatches s).rows[i]? =
        some (if r.status = "processing" then { r with status := "unprocessed" } else r)) ∧
    getUnprocessedCount (resetStuckBatches s).rows =
      getUnprocessedCount s.rows + processingCount s.rows ∧
    processingCount (runPrelude s).rows = 0 := by
  refine ⟨by simp [resetStuckBatches], ?_, reset_unprocessed_count s.rows, ?_⟩
  · intro i r hi
    unfold resetStuckBatches
    simp only [List.getElem?_map, hi, Option.map_some']
    by_cases hp : r.status = "processing" <;> simp [hp]
  · unfold runPrelude resetStuckBatches
    exact reset_no_processing (migrateDatabase s).rows

/-- Witness for C3: on the sample store (one `processing` row at index
3), the reset flips exactly that row and raises the `unprocessed` count
from 2 to 3. -/
theorem resetStuckBatches_recovery_witness :
    (resetStuckBatches ⟨true, sampleDb⟩).rows[3]? =
        some { rowP4 with status := "unprocessed" } ∧
      getUnprocessedCount (resetStuckBatches ⟨true, sampleDb⟩).rows =
        getUnprocessedCount sampleDb + processingCount sampleDb := by
  have h := resetStuckBatches_recovery ⟨true, sampleDb⟩
  refine ⟨?_, h.2.2.1⟩
  have h4 := h.2.1 3 rowP4 (by decide)
  rw [h4]
  decide

/-! ## C1: mutual exclusion -/

/-- Every row of the table after a claim is an original row, possibly
with its status switched to `processing` (and nothing else changed,
in particular not its id). -/
lemma mem_claimBatch_snd {n : Nat} {db : List Row} :
    ∀ q ∈ (claimBatch n db).2, ∃ r ∈ db, q.id = r.id ∧ (q = r ∨ q.status = "processing") := by
  intro q hq
  by_cases h : (claimIds n db).isEmpty
  · rw [claimBatch_eq_nil h] at hq
    exact ⟨q, hq, rfl, Or.inl rfl⟩
  · rw [claimBatch_snd_pos (by simpa using h)] at hq
    obtain ⟨r, hr, rfl⟩ := List.mem_map.mp hq
    refine ⟨r, hr, claimMark_id _ r, ?_⟩
    by_cases hc : (claimIds n db).contains r.id
    · rw [if_pos hc]
      exact Or.inr rfl
    · rw [if_neg (by simpa using hc)]
      exact Or.inl rfl

/-- The ids of a returned batch all come from the step-1 selection. -/
lemma claimBatch_fst_ids {n : Nat} {db : List Row} :
    ∀ q ∈ (claimBatch n db).1, q.id ∈ claimIds n db := by
  intro q hq
  by_cases h : (claimIds n db).isEmpty
  · rw [claimBatch_eq_nil h] at hq
    cases hq
  · rw [claimBatch_fst_pos (by simpa using h)] at hq
    have := (List.mem_filter.mp hq).2
    simpa using this

/-- After a claim, every row whose id was selected is `processing`. -/
lemma claimBatch_snd_claimed {n : Nat} {db : List Row} :
    ∀ r' ∈ (claimBatch n db).2, r'.id ∈ claimIds n db → r'.status = "processing" := by
  intro r' hr' hid
  by_cases h : (claimIds n db).isEmpty
  · rw [List.isEmpty_iff] at h
    rw [h] at hid
    cases hid
  · rw [claimBatch_snd_pos (by simpa using h)] at hr'
    obtain ⟨r, _hr, rfl⟩ := List.mem_map.mp hr'
    rw [claimMark_id] at hid
    rw [if_pos (by simpa using hid)]

/-- Two consecutive `claimBatch` calls return id-disjoint batches: the
second selects only rows still `unprocessed`, and the first left every
row it returned (and every row sharing an id with it) `processing`. -/
lemma consecutive_claims_disjoint (n m : Nat) (db : List Row) :
    ∀ q1 ∈ (claimBatch n db).1, ∀ q2 ∈ (claimBatch m (claimBatch n db).2).1,
      q1.id ≠ q2.id := by
  intro q1 hq1 q2 hq2 heq
  have hid2 : q2.id ∈ claimIds m (claimBatch n db).2 := claimBatch_fst_ids q2 hq2
  obtain ⟨r1, hr1, hr1id, hr1st⟩ := claimIds_origin q2.id hid2
  have hid1 : q1.id ∈ claimIds n db := claimBatch_fst_ids q1 hq1
  have : r1.status = "processing" :=
    claimBatch_snd_claimed r1 hr1 (by rw [hr1id, ← heq]; exact hid1)
  rw [this] at hr1st
  simp at hr1st

/-- Every row of the table after an `updateBatch` is an original row
with the same id whose status is either untouched or set to the written
status. -/
lemma mem_updateBatch_status {processed : List ProcessedQuestion} {status : String}
    {db : List Row} :
    ∀ q ∈ updateBatch processed status db,
      ∃ r ∈ db, q.id = r.id ∧ (q.status = r.status ∨ q.status = status) := by
  induction processed generalizing db with
  | nil =>
    intro q hq
    exact ⟨q, hq, rfl, Or.inl rfl⟩
  | cons p ps ih =>
    intro q hq
    rw [show updateBatch (p :: ps) status db =
        updateBatch ps status (db.map (fun r =>
          if r.id == p.id then
            { r with question := p.question, a := p.a, b := p.b, c := p.c, d := p.d,
                     metadata := p.metadata.getD "", status := status }
          else r)) from rfl] at hq
    obtain ⟨m, hm, hmid, hmcase⟩ := ih q hq
    obtain ⟨r, hr, rfl⟩ := List.mem_map.mp hm
    by_cases hc : r.id == p.id
    · rw [if_pos hc] at hmid hmcase
      refine ⟨r, hr, hmid, ?_⟩
      rcases hmcase with hsame | hst
      · exact Or.inr hsame
      · exact Or.inr hst
    · rw [if_neg hc] at hmid hmcase
      exact ⟨r, hr, hmid, hmcase⟩

/-- No `unprocessed` row can carry an id of an outstanding batch after
a claim either: the claim only ever flips statuses to `processing`. -/
lemma claim_preserves_claimed {n : Nat} {db : List Row} {ids0 : List String}
    (hmem : ∀ r ∈ db, r.id ∈ ids0 → r.status ≠ "unprocessed") :
    ∀ r' ∈ (claimBatch n db).2, r'.id ∈ ids0 → r'.status ≠ "unprocessed" := by
  intro r' hr' hid hst
  obtain ⟨r, hr, hrid, hcase⟩ := mem_claimBatch_snd r' hr'
  rcases hcase with heq | hproc
  · subst heq
    exact hmem r' hr hid hst
  · rw [hproc] at hst
    simp at hst

/-- One whole queue operation preserves the queue-protocol invariant. -/
lemma queueInv_step (s : QueueState) (op : QueueOp) (h : QueueInv s) :
    QueueInv (applyQueueOp s op) := by
  obtain ⟨hpair, hmem⟩ := h
  cases op with
  | claim n =>
    have hdb : ∀ b ∈ s.outstanding, ∀ id ∈ b, ∀ r ∈ (claimBatch n s.db).2,
        r.id = id → r.status ≠ "unprocessed" := by
      intro b hb id hid r' hr' hrid
      rw [← hrid] at hid
      exact claim_preserves_claimed (fun r hr hrid2 => hmem b hb r.id hrid2 r hr rfl)
        r' hr' hid
    have hnew : ∀ id ∈ (claimBatch n s.db).1.map Row.id, id ∈ claimIds n s.db := by
      intro id hid
      obtain ⟨q, hq, rfl⟩ := List.mem_map.mp hid
      exact claimBatch_fst_ids q hq
    by_cases hemp : (claimBatch n s.db).1.isEmpty
    · have heq : applyQueueOp s (QueueOp.claim n) =
          ⟨(claimBatch n s.db).2, s.outstanding⟩ := by
        simp only [applyQueueOp]
        rw [if_pos hemp]
      rw [heq]
      exact ⟨hpair, hdb⟩
    · have heq : applyQueueOp s (QueueOp.claim n) =
          ⟨(claimBatch n s.db).2,
            s.outstanding ++ [(claimBatch n s.db).1.map Row.id]⟩ := by
        simp only [applyQueueOp]
        rw [if_neg hemp]
      rw [heq]
      constructor
      · rw [List.pairwise_append]
        refine ⟨hpair, List.pairwise_singleton _ _, ?_⟩
        intro b hb bn hbn id hid
        rw [List.mem_singleton] at hbn
        subst hbn
        intro hmem'
        obtain ⟨r, hr, hrid, hrst⟩ := claimIds_origin id (hnew id hmem')
        exact hmem b hb id hid r hr hrid hrst
      · intro b hb id hid r' hr' hrid hst
        rcases List.mem_append.mp hb with hb | hb
        · exact hdb b hb id hid r' hr' hrid hst
        · rw [List.mem_singleton] at hb
          subst hb
          have : r'.status = "processing" :=
            claimBatch_snd_claimed r' hr' (by rw [hrid]; exact hnew id hid)
          rw [this] at hst
          simp at hst
  | commit batchIds results =>
    by_cases hin : batchIds ∈ s.outstanding
    · have heq : applyQueueOp s (QueueOp.commit batchIds results) =
          ⟨updateBatch results "completed" s.db, s.outstanding.erase batchIds⟩ := by
        simp only [applyQueueOp]
        rw [if_pos hin]
      rw [heq]
      constructor
      · exact hpair.sublist (List.erase_sublist _ _)
      · intro b hb id hid r' hr' hrid hst
        have hb' : b ∈ s.outstanding := List.mem_of_mem_erase hb
        obtain ⟨r, hr, hrid', hcase⟩ := mem_updateBatch_status r' hr'
        rcases hcase with hsame | hdone
        · refine hmem b hb' id hid r hr ?_ ?_
          · rw [← hrid']
            exact hrid
          · rw [← hsame]
            exact hst
        · rw [hdone] at hst
          simp at hst
    · have heq : applyQueueOp s (QueueOp.commit batchIds results) = s := by
        simp only [applyQueueOp]
        rw [if_neg hin]
      rw [heq]
      exact ⟨hpair, hmem⟩
  | release batchIds =>
    by_cases hin : batchIds ∈ s.outstanding
    · have heq : applyQueueOp s (QueueOp.release batchIds) =
          ⟨markBatchFailed batchIds s.db, s.outstanding.erase batchIds⟩ := by
        simp only [applyQueueOp]
        rw [if_pos hin]
      rw [heq]
      constructor
      · exact hpair.sublist (List.erase_sublist _ _)
      · intro b hb id hid r' hr' hrid hst
        obtain ⟨l₁, l₂, _hnl, hdecomp, herase⟩ := List.exists_erase_eq hin
        have hdisj : id ∉ batchIds := by
          rw [herase] at hb
          rw [hdecomp] at hpair
          rcases List.mem_append.mp hb with hbl | hbl
          · have := (List.pairwise_append.mp hpair).2.2 b hbl batchIds
              (List.mem_cons_self _ _)
            exact this id hid
          · have hp2 := (List.pairwise_append.mp hpair).2.1
            have := (List.pairwise_cons.mp hp2).1 b hbl
            intro hmem'
            exact this id hmem' hid
        have hb' : b ∈ s.outstanding := by
          rw [herase] at hb
          rw [hdecomp]
          rcases List.mem_append.mp hb with hbl | hbl
          · exact List.mem_append.mpr (Or.inl hbl)
          · exact List.mem_append.mpr (Or.inr (List.mem_cons_of_mem _ hbl))
        unfold markBatchFailed at hr'
        by_cases hempty : batchIds.isEmpty
        · rw [if_pos hempty] at hr'
          exact hmem b hb' id hid r' hr' hrid hst
        · rw [if_neg hempty] at hr'
          obtain ⟨r, hr, rfl⟩ := List.mem_map.mp hr'
          by_cases hc : batchIds.contains r.id
          · rw [if_pos hc] at hrid
            have hrin : r.id ∈ batchIds := by simpa using hc
            have : ({ r with status := "unprocessed" } : Row).id = r.id := rfl
            rw [this] at hrid
            rw [hrid] at hrin
            exact hdisj hrin
          · rw [if_neg hc] at hrid hst
            exact hmem b hb' id hid r hr hrid hst
    · have heq : applyQueueOp s (QueueOp.release batchIds) = s := by
        simp only [applyQueueOp]
        rw [if_neg hin]
      rw [heq]
      exact ⟨hpair, hmem⟩

/-- The invariant holds along any whole-operation run. -/
lemma queueInv_run (ops : List QueueOp) (s : QueueState) (h : QueueInv s) :
    QueueInv (runQueueOps s ops) := by
  induction ops generalizing s with
  | nil => exact h
  | cons op ops ih => exact ih _ (queueInv_step s op h)

/-- Claim C1: no WorkItem identifier ever appears in two outstanding
claimed batches.  For every initial store and every sequence of whole
claim/commit/release operations (each claim one atomic transaction),
the batches that have been claimed and not yet committed or released
are pairwise disjoint id sets; and in particular, for two consecutive
`claimBatch` calls, the second returns no id returned by the first
while those items are still claimed. -/
theorem claim_mutual_exclusion :
    (∀ (db0 : List Row) (ops : List QueueOp),
      (runQueueOps ⟨db0, []⟩ ops).outstanding.Pairwise
        (fun b1 b2 => ∀ id ∈ b1, id ∉ b2)) ∧
    ∀ (n m : Nat) (db : List Row),
      ∀ q1 ∈ (claimBatch n db).1, ∀ q2 ∈ (claimBatch m (claimBatch n db).2).1,
        q1.id ≠ q2.id := by
  constructor
  · intro db0 ops
    exact (queueInv_run ops ⟨db0, []⟩
      ⟨List.Pairwise.nil, by intro b hb; cases hb⟩).1
  · exact consecutive_claims_disjoint

/-- Witness for C1: on the sample table (claiming one row at a time),
two consecutive claims return `q1` and then `q2`, and the outstanding
batches after the two claim operations are the singletons of `q1`
and of `q2` —
pairwise disjoint. -/
theorem claim_mutual_exclusion_witness :
    (runQueueOps ⟨sampleDb, []⟩ [QueueOp.claim 1, QueueOp.claim 1]).outstanding.Pairwise
        (fun b1 b2 => ∀ id ∈ b1, id ∉ b2) ∧
      ∀ q1 ∈ (claimBatch 1 sampleDb).1, ∀ q2 ∈ (claimBatch 1 (claimBatch 1 sampleDb).2).1,
        q1.id ≠ q2.id :=
  ⟨claim_mutual_exclusion.1 sampleDb [QueueOp.claim 1, QueueOp.claim 1],
    claim_mutual_exclusion.2 1 1 sampleDb⟩

/-! ## C9: credential rotation -/

/-- Any residue `j < len` is reached from `idx` in between `1` and
`len` forward steps modulo `len`. -/
lemma exists_offset {len : Nat} (hlen : 0 < len) (idx j : Nat) (hj : j < len) :
    ∃ k, 1 ≤ k ∧ k ≤ len ∧ (idx + k) % len = j := by
  have hi0 : idx % len < len := Nat.mod_lt _ hlen
  refine ⟨(j + len - (idx % len + 1)) % len + 1, Nat.le_add_left 1 _, ?_, ?_⟩
  · have : (j + len - (idx % len + 1)) % len < len := Nat.mod_lt _ hlen
    omega
  · have hsub : idx % len + 1 ≤ j + len := by omega
    have hexp : idx % len + 1 + (j + len - (idx % len + 1)) = j + len := by omega
    calc (idx + ((j + len - (idx % len + 1)) % len + 1)) % len
        = (idx % len + ((j + len - (idx % len + 1)) % len + 1)) % len := by
          rw [Nat.mod_add_mod]
      _ = (idx % len + 1 + (j + len - (idx % len + 1)) % len) % len := by
          ring_nf
      _ = (idx % len + 1 + (j + len - (idx % len + 1))) % len := by
          rw [Nat.add_mod_mod]
      _ = (j + len) % len := by rw [hexp]
      _ = j := by
          rw [Nat.add_mod_right]
          exact Nat.mod_eq_of_lt hj

/-- If some non-exhausted index is reachable within the remaining
`fuel` steps, the search loop finds a non-exhausted index. -/
lemma rotateAux_success (exhausted : Finset Nat) (len : Nat) (hlen : 0 < len) :
    ∀ (fuel idx : Nat), (∃ k, 1 ≤ k ∧ k ≤ fuel ∧ (idx + k) % len ∉ exhausted) →
      (rotateAux exhausted len fuel idx).1 = true ∧
      (rotateAux exhausted len fuel idx).2 ∉ exhausted ∧
      (rotateAux exhausted len fuel idx).2 < len := by
  intro fuel
  induction fuel with
  | zero =>
    rintro idx ⟨k, hk1, hk0, _⟩
    omega
  | succ fuel ih =>
    rintro idx ⟨k, hk1, hkf, hkfree⟩
    by_cases hmem : (idx + 1) % len ∈ exhausted
    · have hk2 : 2 ≤ k := by
        rcases Nat.lt_or_ge k 2 with hlt | hge
        · interval_cases k
          exact absurd hmem hkfree
        · exact hge
      have hnext : ∃ k', 1 ≤ k' ∧ k' ≤ fuel ∧ ((idx + 1) % len + k') % len ∉ exhausted := by
        refine ⟨k - 1, by omega, by omega, ?_⟩
        rw [Nat.mod_add_mod]
        have : idx + 1 + (k - 1) = idx + k := by omega
        rw [this]
        exact hkfree
      have hres := ih ((idx + 1) % len) hnext
      rw [show rotateAux exhausted len (fuel + 1) idx =
          rotateAux exhausted len fuel ((idx + 1) % len) by
        rw [rotateAux]
        simp only [hmem, if_true]]
      exact hres
    · rw [show rotateAux exhausted len (fuel + 1) idx = (true, (idx + 1) % len) by
        rw [rotateAux]
        simp only [hmem, if_false]]
      exact ⟨rfl, hmem, Nat.mod_lt _ hlen⟩

/-- When a non-exhausted key exists (in a well-formed pool),
`rotateKey` returns `true` and lands the current index on a
non-exhausted in-range key, leaving the key list and the exhausted set
unchanged. -/
lemma rotateKey_success (g : GeminiState) (_hwf : GeminiWf g)
    (havail : g.exhaustedKeys.card < g.apiKeys.length) :
    (rotateKey g).1 = true ∧
    (rotateKey g).2.currentKeyIndex ∉ g.exhaustedKeys ∧
    (rotateKey g).2.currentKeyIndex < g.apiKeys.length ∧
    (rotateKey g).2.apiKeys = g.apiKeys ∧
    (rotateKey g).2.exhaustedKeys = g.exhaustedKeys := by
  have hlen : 0 < g.apiKeys.length := by omega
  obtain ⟨j, hj, hjfree⟩ : ∃ j, j < g.apiKeys.length ∧ j ∉ g.exhaustedKeys := by
    by_contra hcon
    push_neg at hcon
    have hsub : Finset.range g.apiKeys.length ⊆ g.exhaustedKeys := by
      intro i hi
      exact hcon i (Finset.mem_range.mp hi)
    have := Finset.card_le_card hsub
    rw [Finset.card_range] at this
    omega
  obtain ⟨k, hk1, hkl, hkeq⟩ := exists_offset hlen g.currentKeyIndex j hj
  have haux := rotateAux_success g.exhaustedKeys g.apiKeys.length hlen
    g.apiKeys.length g.currentKeyIndex ⟨k, hk1, hkl, by rw [hkeq]; exact hjfree⟩
  have heq : rotateKey g =
      ((rotateAux g.exhaustedKeys g.apiKeys.length g.apiKeys.length g.currentKeyIndex).1,
        { g with currentKeyIndex :=
            (rotateAux g.exhaustedKeys g.apiKeys.length g.apiKeys.length
              g.currentKeyIndex).2 }) := by
    unfold rotateKey
    rw [if_neg (by omega)]
  rw [heq]
  exact ⟨haux.1, haux.2.1, haux.2.2, rfl, rfl⟩

/-- Claim C9: in every well-formed credential-pool state with at least one
non-exhausted credential, `rotateKey` terminates with `true` and
afterwards the single current credential is a non-exhausted in-range
one (the key list and exhausted set untouched); when all `N`
credentials are exhausted, `rotateKey` returns `false` and
`hasAvailableKeys` returns `false` (the pool is dead); and
`markKeyExhausted` never changes which credential is current. -/
theorem rotateKey_contract (g : GeminiState) (hwf : GeminiWf g) :
    (g.exhaustedKeys.card < g.apiKeys.length →
      (rotateKey g).1 = true ∧
      (rotateKey g).2.currentKeyIndex ∉ g.exhaustedKeys ∧
      (rotateKey g).2.currentKeyIndex < g.apiKeys.length ∧
      (rotateKey g).2.apiKeys = g.apiKeys ∧
      (rotateKey g).2.exhaustedKeys = g.exhaustedKeys) ∧
    ((∀ i < g.apiKeys.length, i ∈ g.exhaustedKeys) →
      rotateKey g = (false, g) ∧ hasAvailableKeys g = false) ∧
    (markKeyExhausted g).currentKeyIndex = g.currentKeyIndex := by
  refine ⟨fun havail => rotateKey_success g hwf havail, fun hall => ?_, rfl⟩
  have hsub : Finset.range g.apiKeys.length ⊆ g.exhaustedKeys := by
    intro i hi
    exact hall i (Finset.mem_range.mp hi)
  have hcard : g.apiKeys.length ≤ g.exhaustedKeys.card := by
    have := Finset.card_le_card hsub
    rwa [Finset.card_range] at this
  constructor
  · unfold rotateKey
    rw [if_pos hcard]
  · unfold hasAvailableKeys
    simp
    omega

/-- Witness for C9: the sample pool (3 keys, keys 1 and 2 exhausted,
current 0) is well-formed and rotation succeeds, landing on the free
key. -/
theorem rotateKey_contract_witness :
    GeminiWf sampleGemini ∧ (rotateKey sampleGemini).1 = true :=
  ⟨by decide, ((rotateKey_contract sampleGemini (by decide)).1 (by decide)).1⟩

/-! ## C10: progress-counter consistency -/

/-- Modifying one in-range entry whose tracked field grows by `δ` grows
the sum of that field over the list by `δ`. -/
lemma sum_map_modify (g : WorkerStats → WorkerStats) (field : WorkerStats → Nat)
    (δ : Nat) (hg : ∀ w, field (g w) = field w + δ) :
    ∀ (l : List WorkerStats) (i : Nat), i < l.length →
      ((l.modify g i).map field).sum = (l.map field).sum + δ := by
  intro l
  induction l with
  | nil =>
    intro i hi
    cases hi
  | cons w l ih =>
    intro i hi
    cases i with
    | zero =>
      rw [List.modify_zero_cons]
      simp [hg w]
      omega
    | succ i =>
      rw [List.modify_succ_cons]
      have := ih i (by simpa using hi)
      simp [this]
      omega

/-- Modifying any entry leaves a field it does not touch with an
unchanged sum. -/
lemma sum_map_modify_untouched (g : WorkerStats → WorkerStats)
    (field : WorkerStats → Nat) (hg : ∀ w, field (g w) = field w) :
    ∀ (l : List WorkerStats) (i : Nat),
      ((l.modify g i).map field).sum = (l.map field).sum := by
  intro l
  induction l with
  | nil =>
    intro i
    rw [List.modify_nil]
  | cons w l ih =>
    intro i
    cases i with
    | zero =>
      rw [List.modify_zero_cons]
      simp [hg w]
    | succ i =>
      rw [List.modify_succ_cons]
      simp [ih i]

/-- Source `List.modify` preserves length. -/
lemma length_modify_stats (g : WorkerStats → WorkerStats) :
    ∀ (l : List WorkerStats) (i : Nat), (l.modify g i).length = l.length := by
  intro l i
  exact List.length_modify g i l

/-- The per-state form of the C10 invariant: the aggregate counters
equal the base value plus the per-worker sums. -/
def ProgressConsistent (base : Nat) (workerCount : Nat) (p : ProgressTracker) : Prop :=
  p.workerStats.length = workerCount ∧
  p.questionsProcessed = base + (p.workerStats.map WorkerStats.questionsProcessed).sum ∧
  p.failedBatches = (p.workerStats.map WorkerStats.failed).sum

/-- One in-range progress call preserves consistency. -/
lemma progressConsistent_step (base workerCount : Nat) (p : ProgressTracker)
    (op : ProgressOp) (hw : 1 ≤ op.workerId ∧ op.workerId ≤ workerCount)
    (h : ProgressConsistent base workerCount p) :
    ProgressConsistent base workerCount (applyProgressOp p op) := by
  obtain ⟨hlen, hq, hf⟩ := h
  cases op with
  | start w =>
    exact ⟨hlen, hq, hf⟩
  | complete w q =>
    have hidx : w - 1 < p.workerStats.length := by
      simp only [ProgressOp.workerId] at hw
      omega
    simp only [applyProgressOp, ProgressTracker.completeBatch]
    refine ⟨?_, ?_, ?_⟩ <;> dsimp only
    · rw [List.length_modify]
      exact hlen
    · rw [sum_map_modify
        (fun ws => { ws with completed := ws.completed + 1,
                             questionsProcessed := ws.questionsProcessed + q })
        WorkerStats.questionsProcessed q (fun ws => rfl) p.workerStats (w - 1) hidx]
      omega
    · rw [sum_map_modify_untouched
        (fun ws => { ws with completed := ws.completed + 1,
                             questionsProcessed := ws.questionsProcessed + q })
        WorkerStats.failed (fun ws => rfl) p.workerStats (w - 1)]
      exact hf
  | fail w =>
    have hidx : w - 1 < p.workerStats.length := by
      simp only [ProgressOp.workerId] at hw
      omega
    simp only [applyProgressOp, ProgressTracker.failBatch]
    refine ⟨?_, ?_, ?_⟩ <;> dsimp only
    · rw [List.length_modify]
      exact hlen
    · rw [sum_map_modify_untouched
        (fun ws => { ws with failed := ws.failed + 1 })
        WorkerStats.questionsProcessed (fun ws => rfl) p.workerStats (w - 1)]
      exact hq
    · rw [sum_map_modify
        (fun ws => { ws with failed := ws.failed + 1 })
        WorkerStats.failed 1 (fun ws => rfl) p.workerStats (w - 1) hidx]
      omega

/-- Claim C10: for every `ProgressTracker` and every sequence of
`startBatch` / `completeBatch` / `failBatch` calls whose worker id lies
between 1 and the configured worker count, the aggregate
`questionsProcessed` always equals its initial value
(`totalQuestions - unprocessedCount`) plus the sum of the per-worker
`questionsProcessed` tallies, and the aggregate `failedBatches` always
equals the sum of the per-worker `failed` tallies — the summary and the
per-worker breakdown cannot disagree. -/
theorem progress_counters_consistent
    (totalQuestions unprocessedCount batchSize workerCount : Nat)
    (ops : List ProgressOp)
    (hops : ∀ op ∈ ops, 1 ≤ op.workerId ∧ op.workerId ≤ workerCount) :
    (applyProgressOps (ProgressTracker.init totalQuestions unprocessedCount
        batchSize workerCount) ops).questionsProcessed =
      (ProgressTracker.init totalQuestions unprocessedCount batchSize
        workerCount).questionsProcessed +
      ((applyProgressOps (ProgressTracker.init totalQuestions unprocessedCount
        batchSize workerCount) ops).workerStats.map
          WorkerStats.questionsProcessed).sum ∧
    (applyProgressOps (ProgressTracker.init totalQuestions unprocessedCount
        batchSize workerCount) ops).failedBatches =
      ((applyProgressOps (ProgressTracker.init totalQuestions unprocessedCount
        batchSize workerCount) ops).workerStats.map WorkerStats.failed).sum := by
  set base := (ProgressTracker.init totalQuestions unprocessedCount batchSize
    workerCount).questionsProcessed with hbase
  have hinit : ProgressConsistent base workerCount
      (ProgressTracker.init totalQuestions unprocessedCount batchSize workerCount) := by
    refine ⟨by simp [ProgressTracker.init], ?_, ?_⟩
    · rw [hbase]
      simp [ProgressTracker.init, List.map_replicate]
    · simp [ProgressTracker.init, List.map_replicate]
  have hrun : ∀ (ops : List ProgressOp) (p : ProgressTracker),
      (∀ op ∈ ops, 1 ≤ op.workerId ∧ op.workerId ≤ workerCount) →
      ProgressConsistent base workerCount p →
      ProgressConsistent base workerCount (applyProgressOps p ops) := by
    intro ops
    induction ops with
    | nil =>
      intro p _ h
      exact h
    | cons op ops ih =>
      intro p hops h
      exact ih _ (fun o ho => hops o (List.mem_cons_of_mem _ ho))
        (progressConsistent_step base workerCount p op
          (hops op (List.mem_cons_self _ _)) h)
  obtain ⟨_, hq, hf⟩ := hrun ops _ hops hinit
  exact ⟨hq, hf⟩

/-- Witness for C10: two workers, worker 1 completes a batch of 2 and
worker 2 fails one; hypotheses checked at the concrete op list. -/
theorem progress_counters_consistent_witness :
    (∀ op ∈ [ProgressOp.start 1, ProgressOp.complete 1 2, ProgressOp.start 2,
        ProgressOp.fail 2], 1 ≤ op.workerId ∧ op.workerId ≤ 2) ∧
    (applyProgressOps (ProgressTracker.init 10 6 2 2)
        [ProgressOp.start 1, ProgressOp.complete 1 2, ProgressOp.start 2,
          ProgressOp.fail 2]).questionsProcessed =
      (ProgressTracker.init 10 6 2 2).questionsProcessed +
      ((applyProgressOps (ProgressTracker.init 10 6 2 2)
        [ProgressOp.start 1, ProgressOp.complete 1 2, ProgressOp.start 2,
          ProgressOp.fail 2]).workerStats.map WorkerStats.questionsProcessed).sum :=
  ⟨by decide,
    (progress_counters_consistent 10 6 2 2
      [ProgressOp.start 1, ProgressOp.complete 1 2, ProgressOp.start 2,
        ProgressOp.fail 2] (by decide)).1⟩

/-! ## C5: quota-exceeded handling (spec-modelled worker, real pool) -/

/-- Claim C5: a quota-exceeded (HTTP 429-equivalent) dispatch failure is
treated as CredentialExhausted, not Fatal: the current credential is
marked exhausted and, when a non-exhausted credential remains, the
worker rotates to it (`rotateKey` succeeds, the new current credential
is non-exhausted, the fixed 5-second inter-rotation delay is slept),
releases the batch and continues claiming without signalling stop;
only when every credential is exhausted does it release, signal
pool-wide stop and terminate as Fatal.  The credential-pool operations
are the real `gemini.ts` embeddings; the surrounding worker step is
modelled from the spec (see `handleCredentialExhausted`). -/
theorem quota_exceeded_contract (g : GeminiState) (hwf : GeminiWf g)
    (ids : List String) (db : List Row) :
    (handleCredentialExhausted g ids db).gemini.exhaustedKeys =
        insert g.currentKeyIndex g.exhaustedKeys ∧
    (handleCredentialExhausted g ids db).db = markBatchFailed ids db ∧
    (hasAvailableKeys (markKeyExhausted g) = true →
      (handleCredentialExhausted g ids db).result = StepResult.continueLoop ∧
      (handleCredentialExhausted g ids db).poolStop = false ∧
      (rotateKey (markKeyExhausted g)).1 = true ∧
      (handleCredentialExhausted g ids db).gemini.currentKeyIndex ∉
        insert g.currentKeyIndex g.exhaustedKeys ∧
      (handleCredentialExhausted g ids db).events =
        [Ev.sleepEv KEY_ROTATION_DELAY_MS, Ev.releaseEv ids]) ∧
    (hasAvailableKeys (markKeyExhausted g) = false →
      (handleCredentialExhausted g ids db).result = StepResult.exited ∧
      (handleCredentialExhausted g ids db).poolStop = true ∧
      (handleCredentialExhausted g ids db).events = [Ev.releaseEv ids]) := by
  by_cases havail : hasAvailableKeys (markKeyExhausted g)
  · have hcard : (markKeyExhausted g).exhaustedKeys.card <
        (markKeyExhausted g).apiKeys.length := by
      simpa [hasAvailableKeys] using havail
    have hwf1 : GeminiWf (markKeyExhausted g) := by
      obtain ⟨hcur, hsub⟩ := hwf
      refine ⟨hcur, ?_⟩
      intro i hi
      rcases Finset.mem_insert.mp hi with rfl | hi
      · exact hcur
      · exact hsub i hi
    obtain ⟨hrot, hfree, _hlt, _hkeys, hexh⟩ :=
      rotateKey_success (markKeyExhausted g) hwf1 hcard
    have heq : handleCredentialExhausted g ids db =
        { gemini := (rotateKey (markKeyExhausted g)).2
          db := markBatchFailed ids db
          events := [Ev.sleepEv KEY_ROTATION_DELAY_MS, Ev.releaseEv ids]
          poolStop := false
          result := .continueLoop } := by
      unfold handleCredentialExhausted
      rw [if_pos havail]
    rw [heq]
    refine ⟨?_, rfl, fun _ => ⟨rfl, rfl, hrot, ?_, rfl⟩, fun hcon => ?_⟩
    · dsimp only
      rw [hexh]
      rfl
    · dsimp only
      exact hfree
    · rw [havail] at hcon
      cases hcon
  · have heq : handleCredentialExhausted g ids db =
        { gemini := markKeyExhausted g
          db := markBatchFailed ids db
          events := [Ev.releaseEv ids]
          poolStop := true
          result := .exited } := by
      unfold handleCredentialExhausted
      rw [if_neg havail]
    rw [heq]
    refine ⟨rfl, rfl, fun hcon => ?_, fun _ => ⟨rfl, rfl, rfl⟩⟩
    rw [hcon] at havail
    exact absurd rfl havail

/-- Witness for C5: the sample pool (keys 1, 2 of 3 exhausted, current
key 0): marking key 0 exhausted leaves key 2 free... the pool still
reports availability and the handler rotates and continues. -/
theorem quota_exceeded_contract_witness :
    GeminiWf sampleGemini ∧
      hasAvailableKeys (markKeyExhausted sampleGemini) = true ∧
      (handleCredentialExhausted sampleGemini ["q1"] sampleDb).result =
        StepResult.continueLoop := by
  refine ⟨by decide, by decide, ?_⟩
  exact (((quota_exceeded_contract sampleGemini (by decide) ["q1"]
    sampleDb).2.2.1) (by decide)).1

/-! ## Branch equations for the worker body -/

/-- Source `catch` branch: the message mentions `503` and the incremented
consecutive counter reaches the cap: log, set the stop flag and exit -
no release. -/
lemma handleWorkerError_503_cap {cfg : WorkerConfig} {workerId : Nat} {msg : String}
    {ids : List String} {st : WState} (h503 : strContains msg "503" = true)
    (hcap : MAX_503_RETRIES ≤ st.consecutive503 + 1) :
    handleWorkerError cfg workerId msg ids st =
      ({ st with consecutive503 := st.consecutive503 + 1, stopSignal := true },
        [Ev.logErrorEv st.progress.getBatchNumber ids msg], .exited) := by
  unfold handleWorkerError
  rw [if_pos h503, if_pos hcap]

/-- Source `catch` branch: the message mentions `503` and the cap is not yet
reached: log, release, tally the failure, sleep the 30-second retry
delay and continue (skipping the normal inter-batch delay). -/
lemma handleWorkerError_503_retry {cfg : WorkerConfig} {workerId : Nat} {msg : String}
    {ids : List String} {st : WState} (h503 : strContains msg "503" = true)
    (hcap : st.consecutive503 + 1 < MAX_503_RETRIES) :
    handleWorkerError cfg workerId msg ids st =
      ({ st with consecutive503 := st.consecutive503 + 1,
                 db := markBatchFailed ids st.db,
                 progress := st.progress.failBatch workerId },
        [Ev.logErrorEv st.progress.getBatchNumber ids msg, Ev.releaseEv ids,
          Ev.sleepEv RETRY_DELAY_MS], .continueLoop) := by
  unfold handleWorkerError
  rw [if_pos h503, if_neg (by omega)]

/-- Source `catch` branch: `isFatalError` holds: log, set the stop flag and
exit - no release. -/
lemma handleWorkerError_fatal {cfg : WorkerConfig} {workerId : Nat} {msg : String}
    {ids : List String} {st : WState} (h503 : strContains msg "503" = false)
    (hfatal : isFatalError msg = true) :
    handleWorkerError cfg workerId msg ids st =
      ({ st with stopSignal := true },
        [Ev.logErrorEv st.progress.getBatchNumber ids msg], .exited) := by
  unfold handleWorkerError
  rw [if_neg (by simp [h503]), if_pos hfatal]

/-- Source `catch` branch: anything else: log, release, tally, fall through to
the normal inter-batch sleep and continue. -/
lemma handleWorkerError_default {cfg : WorkerConfig} {workerId : Nat} {msg : String}
    {ids : List String} {st : WState} (h503 : strContains msg "503" = false)
    (hfatal : isFatalError msg = false) :
    handleWorkerError cfg workerId msg ids st =
      ({ st with db := markBatchFailed ids st.db,
                 progress := st.progress.failBatch workerId },
        [Ev.logErrorEv st.progress.getBatchNumber ids msg, Ev.releaseEv ids,
          Ev.sleepEv cfg.delayMs], .continueLoop) := by
  unfold handleWorkerError
  rw [if_neg (by simp [h503]), if_neg (by simp [hfatal])]

/-- Worker-body equation: empty claim means break (`noWork`). -/
lemma workerBody_noWork {cfg : WorkerConfig} {jsonOk : String → Bool} {workerId : Nat}
    {st : WState} {outcome : Outcome}
    (hemp : (claimBatch cfg.batchSize st.db).1.isEmpty = true) :
    workerBody cfg jsonOk workerId st outcome =
      ({ st with db := (claimBatch cfg.batchSize st.db).2 }, [], .noWork) := by
  unfold workerBody
  rw [if_pos hemp]

/-- Worker-body equation: a thrown dispatch error goes to the catch
block. -/
lemma workerBody_err {cfg : WorkerConfig} {jsonOk : String → Bool} {workerId : Nat}
    {st : WState} {msg : String}
    (hemp : (claimBatch cfg.batchSize st.db).1.isEmpty = false) :
    workerBody cfg jsonOk workerId st (.err msg) =
      ((handleWorkerError cfg workerId msg (workerBatchIds cfg st)
          (workerClaimState cfg workerId st)).1,
        Ev.logBatchEv (workerClaimState cfg workerId st).progress.getBatchNumber
            (workerBatchIds cfg st) ::
          (handleWorkerError cfg workerId msg (workerBatchIds cfg st)
            (workerClaimState cfg workerId st)).2.1,
        (handleWorkerError cfg workerId msg (workerBatchIds cfg st)
          (workerClaimState cfg workerId st)).2.2) := by
  unfold workerBody workerBatchIds workerClaimState
  rw [if_neg (by simp [hemp])]

/-- Worker-body equation: a result list of the wrong length throws the
mismatch error into the catch block. -/
lemma workerBody_mismatch {cfg : WorkerConfig} {jsonOk : String → Bool} {workerId : Nat}
    {st : WState} {processed : List ProcessedQuestion}
    (hemp : (claimBatch cfg.batchSize st.db).1.isEmpty = false)
    (hlen : processed.length ≠ (claimBatch cfg.batchSize st.db).1.length) :
    workerBody cfg jsonOk workerId st (.ok processed) =
      ((handleWorkerError cfg workerId
          (mismatchMsg (claimBatch cfg.batchSize st.db).1.length processed.length)
          (workerBatchIds cfg st) (workerClaimState cfg workerId st)).1,
        Ev.logBatchEv (workerClaimState cfg workerId st).progress.getBatchNumber
            (workerBatchIds cfg st) ::
          (handleWorkerError cfg workerId
            (mismatchMsg (claimBatch cfg.batchSize st.db).1.length processed.length)
            (workerBatchIds cfg st) (workerClaimState cfg workerId st)).2.1,
        (handleWorkerError cfg workerId
          (mismatchMsg (claimBatch cfg.batchSize st.db).1.length processed.length)
          (workerBatchIds cfg st) (workerClaimState cfg workerId st)).2.2) := by
  unfold workerBody workerBatchIds workerClaimState
  rw [if_neg (by simp [hemp])]
  dsimp only
  rw [if_pos (by simp [hlen])]

/-- Worker-body equation: a length-matching but invalid batch is
released and tallied, then the worker paces and continues. -/
lemma workerBody_invalid {cfg : WorkerConfig} {jsonOk : String → Bool} {workerId : Nat}
    {st : WState} {processed : List ProcessedQuestion} {reason : String}
    (hemp : (claimBatch cfg.batchSize st.db).1.isEmpty = false)
    (hlen : processed.length = (claimBatch cfg.batchSize st.db).1.length)
    (hval : validateBatch jsonOk (sanitizeBatch jsonOk processed) = some reason) :
    workerBody cfg jsonOk workerId st (.ok processed) =
      ({ workerClaimState cfg workerId st with
            db := markBatchFailed (workerBatchIds cfg st)
              (workerClaimState cfg workerId st).db
            progress := (workerClaimState cfg workerId st).progress.failBatch workerId },
        [Ev.logBatchEv (workerClaimState cfg workerId st).progress.getBatchNumber
            (workerBatchIds cfg st),
          Ev.logValidationEv (workerClaimState cfg workerId st).progress.getBatchNumber
            (workerBatchIds cfg st) reason,
          Ev.releaseEv (workerBatchIds cfg st), Ev.sleepEv cfg.delayMs],
        .continueLoop) := by
  unfold workerBody workerBatchIds workerClaimState
  rw [if_neg (by simp [hemp])]
  dsimp only
  rw [if_neg (by simp [hlen])]
  rw [hval]

/-- Worker-body equation: a length-matching valid batch is committed
(`updateBatch .. 'completed'`), tallied, the consecutive-503 counter is
reset, then the worker paces and continues. -/
lemma workerBody_commit {cfg : WorkerConfig} {jsonOk : String → Bool} {workerId : Nat}
    {st : WState} {processed : List ProcessedQuestion}
    (hemp : (claimBatch cfg.batchSize st.db).1.isEmpty = false)
    (hlen : processed.length = (claimBatch cfg.batchSize st.db).1.length)
    (hval : validateBatch jsonOk (sanitizeBatch jsonOk processed) = none) :
    workerBody cfg jsonOk workerId st (.ok processed) =
      ({ workerClaimState cfg workerId st with
            db := updateBatch (sanitizeBatch jsonOk processed) "completed"
              (workerClaimState cfg workerId st).db
            progress := (workerClaimState cfg workerId st).progress.completeBatch
              workerId (claimBatch cfg.batchSize st.db).1.length
            consecutive503 := 0 },
        [Ev.logBatchEv (workerClaimState cfg workerId st).progress.getBatchNumber
            (workerBatchIds cfg st),
          Ev.commitEv ((sanitizeBatch jsonOk processed).map (·.id)),
          Ev.sleepEv cfg.delayMs],
        .continueLoop) := by
  unfold workerBody workerBatchIds workerClaimState
  rw [if_neg (by simp [hemp])]
  dsimp only
  rw [if_neg (by simp [hlen])]
  rw [hval]

/-- A leading per-batch log line does not change the commit count. -/
lemma countCommits_cons_log (bn : Nat) (ids : List String) (l : List Ev) :
    countCommits (Ev.logBatchEv bn ids :: l) = countCommits l := by
  simp [countCommits]

/-- A leading per-batch log line does not change the release count. -/
lemma countReleases_cons_log (bn : Nat) (ids : List String) (l : List Ev) :
    countReleases (Ev.logBatchEv bn ids :: l) = countReleases l := by
  simp [countReleases]

/-- Case summary of the catch block: either the iteration continues
with the batch released exactly once (no commit, stop flag untouched,
store released), or it exits with neither commit nor release, the stop
flag set and the store untouched. -/
lemma handleWorkerError_cases (cfg : WorkerConfig) (workerId : Nat) (msg : String)
    (ids : List String) (st1 : WState) :
    ((handleWorkerError cfg workerId msg ids st1).2.2 = .continueLoop ∧
      countCommits (handleWorkerError cfg workerId msg ids st1).2.1 = 0 ∧
      countReleases (handleWorkerError cfg workerId msg ids st1).2.1 = 1 ∧
      (handleWorkerError cfg workerId msg ids st1).1.stopSignal = st1.stopSignal ∧
      (handleWorkerError cfg workerId msg ids st1).1.db = markBatchFailed ids st1.db) ∨
    ((handleWorkerError cfg workerId msg ids st1).2.2 = .exited ∧
      countCommits (handleWorkerError cfg workerId msg ids st1).2.1 = 0 ∧
      countReleases (handleWorkerError cfg workerId msg ids st1).2.1 = 0 ∧
      (handleWorkerError cfg workerId msg ids st1).1.stopSignal = true ∧
      (handleWorkerError cfg workerId msg ids st1).1.db = st1.db) := by
  by_cases h503 : strContains msg "503"
  · by_cases hcap : MAX_503_RETRIES ≤ st1.consecutive503 + 1
    · right
      rw [handleWorkerError_503_cap h503 hcap]
      exact ⟨rfl, rfl, rfl, rfl, rfl⟩
    · left
      rw [handleWorkerError_503_retry h503 (by omega)]
      exact ⟨rfl, rfl, rfl, rfl, rfl⟩
  · by_cases hfatal : isFatalError msg
    · right
      rw [handleWorkerError_fatal (by simpa using h503) hfatal]
      exact ⟨rfl, rfl, rfl, rfl, rfl⟩
    · left
      rw [handleWorkerError_default (by simpa using h503) (by simpa using hfatal)]
      exact ⟨rfl, rfl, rfl, rfl, rfl⟩

/-- Source `markBatchFailed` leaves every row whose id is in the released list
with status `unprocessed`. -/
lemma markBatchFailed_sets {ids : List String} {db : List Row} :
    ∀ r ∈ markBatchFailed ids db, r.id ∈ ids → r.status = "unprocessed" := by
  intro r hr hid
  unfold markBatchFailed at hr
  by_cases hemp : ids.isEmpty
  · rw [List.isEmpty_iff] at hemp
    rw [hemp] at hid
    cases hid
  · rw [if_neg hemp] at hr
    obtain ⟨r0, _hr0, rfl⟩ := List.mem_map.mp hr
    by_cases hc : ids.contains r0.id
    · rw [if_pos hc]
    · rw [if_neg hc] at hid ⊢
      exact absurd (by simpa using hid) (by simpa using hc)

/-! ## C4: commit/release exclusivity -/

/-- Counterexample to C4 as stated: on the sample table a network
error (classified fatal) makes the worker set the stop flag and
terminate (`process.exit(1)`) with neither a commit nor a release —
the two rows it had claimed are left in status `processing`. -/
theorem batch_resolution_counterexample :
    (claimBatch sampleCfg.batchSize sampleState.db).1.isEmpty = false ∧
    (workerBody sampleCfg (fun _ => true) 1 sampleState
        (Outcome.err "fetch failed: network down")).2.2 = StepResult.exited ∧
    countCommits (workerBody sampleCfg (fun _ => true) 1 sampleState
        (Outcome.err "fetch failed: network down")).2.1 = 0 ∧
    countReleases (workerBody sampleCfg (fun _ => true) 1 sampleState
        (Outcome.err "fetch failed: network down")).2.1 = 0 ∧
    (∀ r ∈ (workerBody sampleCfg (fun _ => true) 1 sampleState
        (Outcome.err "fetch failed: network down")).1.db,
      r.id = "q1" ∨ r.id = "q2" → r.status = "processing") := by
  decide

/-- Claim C4, amended: on every path of the worker loop that continues
(success, validation failure, under-cap 503, default non-fatal), a
non-empty claimed batch is resolved by exactly one of commit
(`updateBatch .. 'completed'`) or release (`markBatchFailed`); on the
fatal-escalation paths (503 cap reached, `isFatalError`) the worker
sets the stop flag and terminates the process with neither — leaving
the claimed rows in status `processing`, to be recovered by the next
startup's `resetStuckBatches`. -/
theorem batch_resolution_amended (cfg : WorkerConfig) (jsonOk : String → Bool)
    (workerId : Nat) (st : WState) (outcome : Outcome)
    (hne : (claimBatch cfg.batchSize st.db).1.isEmpty = false) :
    ((workerBody cfg jsonOk workerId st outcome).2.2 = StepResult.continueLoop ∧
      countCommits (workerBody cfg jsonOk workerId st outcome).2.1 +
        countReleases (workerBody cfg jsonOk workerId st outcome).2.1 = 1) ∨
    ((workerBody cfg jsonOk workerId st outcome).2.2 = StepResult.exited ∧
      (workerBody cfg jsonOk workerId st outcome).1.stopSignal = true ∧
      countCommits (workerBody cfg jsonOk workerId st outcome).2.1 +
        countReleases (workerBody cfg jsonOk workerId st outcome).2.1 = 0 ∧
      ∀ q ∈ (claimBatch cfg.batchSize st.db).1,
        q ∈ (workerBody cfg jsonOk workerId st outcome).1.db ∧
          q.status = "processing") := by
  have hclaimed : ∀ q ∈ (claimBatch cfg.batchSize st.db).1,
      q ∈ (claimBatch cfg.batchSize st.db).2 ∧ q.status = "processing" := by
    intro q hq
    obtain ⟨hst, hmem⟩ := claimBatch_mem_status q hq
    exact ⟨hmem, hst⟩
  cases outcome with
  | err msg =>
    rw [workerBody_err hne]
    rcases handleWorkerError_cases cfg workerId msg (workerBatchIds cfg st)
        (workerClaimState cfg workerId st) with
      ⟨hres, hc, hr, _hstop, _hdb⟩ | ⟨hres, hc, hr, hstop, hdb⟩
    · left
      refine ⟨hres, ?_⟩
      rw [countCommits_cons_log, countReleases_cons_log, hc, hr]
    · right
      refine ⟨hres, hstop, ?_, ?_⟩
      · rw [countCommits_cons_log, countReleases_cons_log, hc, hr]
      · intro q hq
        rw [hdb]
        exact ⟨(hclaimed q hq).1, (hclaimed q hq).2⟩
  | ok processed =>
    by_cases hlen : processed.length = (claimBatch cfg.batchSize st.db).1.length
    · cases hval : validateBatch jsonOk (sanitizeBatch jsonOk processed) with
      | some reason =>
        rw [workerBody_invalid hne hlen hval]
        left
        exact ⟨rfl, by simp [countCommits, countReleases]⟩
      | none =>
        rw [workerBody_commit hne hlen hval]
        left
        exact ⟨rfl, by simp [countCommits, countReleases]⟩
    · rw [workerBody_mismatch hne hlen]
      rcases handleWorkerError_cases cfg workerId
          (mismatchMsg (claimBatch cfg.batchSize st.db).1.length processed.length)
          (workerBatchIds cfg st) (workerClaimState cfg workerId st) with
        ⟨hres, hc, hr, _hstop, _hdb⟩ | ⟨hres, hc, hr, hstop, hdb⟩
      · left
        refine ⟨hres, ?_⟩
        rw [countCommits_cons_log, countReleases_cons_log, hc, hr]
      · right
        refine ⟨hres, hstop, ?_, ?_⟩
        · rw [countCommits_cons_log, countReleases_cons_log, hc, hr]
        · intro q hq
          rw [hdb]
          exact ⟨(hclaimed q hq).1, (hclaimed q hq).2⟩

/-- Witness for the amended C4: the sample state with a valid dispatch
result for its two claimed rows resolves with exactly one commit. -/
theorem batch_resolution_amended_witness :
    (claimBatch sampleCfg.batchSize sampleState.db).1.isEmpty = false ∧
    (((workerBody sampleCfg (fun _ => true) 1 sampleState
          (Outcome.ok [pqGood1, pqGood2])).2.2 = StepResult.continueLoop ∧
        countCommits (workerBody sampleCfg (fun _ => true) 1 sampleState
            (Outcome.ok [pqGood1, pqGood2])).2.1 +
          countReleases (workerBody sampleCfg (fun _ => true) 1 sampleState
            (Outcome.ok [pqGood1, pqGood2])).2.1 = 1) ∨
      ((workerBody sampleCfg (fun _ => true) 1 sampleState
          (Outcome.ok [pqGood1, pqGood2])).2.2 = StepResult.exited ∧
        (workerBody sampleCfg (fun _ => true) 1 sampleState
          (Outcome.ok [pqGood1, pqGood2])).1.stopSignal = true ∧
        countCommits (workerBody sampleCfg (fun _ => true) 1 sampleState
            (Outcome.ok [pqGood1, pqGood2])).2.1 +
          countReleases (workerBody sampleCfg (fun _ => true) 1 sampleState
            (Outcome.ok [pqGood1, pqGood2])).2.1 = 0 ∧
        ∀ q ∈ (claimBatch sampleCfg.batchSize sampleState.db).1,
          q ∈ (workerBody sampleCfg (fun _ => true) 1 sampleState
              (Outcome.ok [pqGood1, pqGood2])).1.db ∧
            q.status = "processing")) :=
  ⟨by decide, batch_resolution_amended sampleCfg (fun _ => true) 1 sampleState
    (Outcome.ok [pqGood1, pqGood2]) (by decide)⟩

/-! ## C6: retry cap -/

/-- Claim C6: the retry cap, with `R = MAX_503_RETRIES - 1 = 9` the
number of consecutive retries the worker will perform (the source's
threshold constant is `MAX_503_RETRIES = 10`, checked with `>=` after
incrementing).  While the consecutive-503 count has not exceeded `R`,
a transient-overload (503) failure makes the worker release the batch
and continue, its only sleep being the fixed 30-second retry delay
(normal pacing skipped), the counter incremented, the stop flag
untouched.  Escalation happens exactly when the count exceeds `R`
(i.e. at the `MAX_503_RETRIES`-th consecutive occurrence): stop flag
set, exit, and — not before.  A successful commit resets the counter
to zero. -/
theorem retry_cap_contract (cfg : WorkerConfig) (jsonOk : String → Bool)
    (workerId : Nat) (st : WState)
    (hne : (claimBatch cfg.batchSize st.db).1.isEmpty = false) :
    (∀ msg : String, strContains msg "503" = true →
      (st.consecutive503 + 1 ≤ MAX_503_RETRIES - 1 →
        (workerBody cfg jsonOk workerId st (.err msg)).2.2 = StepResult.continueLoop ∧
        (workerBody cfg jsonOk workerId st (.err msg)).1.consecutive503 =
          st.consecutive503 + 1 ∧
        (workerBody cfg jsonOk workerId st (.err msg)).1.stopSignal = st.stopSignal ∧
        countReleases (workerBody cfg jsonOk workerId st (.err msg)).2.1 = 1 ∧
        ((workerBody cfg jsonOk workerId st (.err msg)).2.1.filter isSleepEv) =
          [Ev.sleepEv RETRY_DELAY_MS]) ∧
      (MAX_503_RETRIES - 1 < st.consecutive503 + 1 →
        (workerBody cfg jsonOk workerId st (.err msg)).2.2 = StepResult.exited ∧
        (workerBody cfg jsonOk workerId st (.err msg)).1.stopSignal = true ∧
        countReleases (workerBody cfg jsonOk workerId st (.err msg)).2.1 = 0)) ∧
    (∀ processed : List ProcessedQuestion,
      processed.length = (claimBatch cfg.batchSize st.db).1.length →
      validateBatch jsonOk (sanitizeBatch jsonOk processed) = none →
      (workerBody cfg jsonOk workerId st (.ok processed)).1.consecutive503 = 0 ∧
      countCommits (workerBody cfg jsonOk workerId st (.ok processed)).2.1 = 1) := by
  constructor
  · intro msg h503
    constructor
    · intro hunder
      rw [workerBody_err hne, handleWorkerError_503_retry h503 (by
        show (workerClaimState cfg workerId st).consecutive503 + 1 < MAX_503_RETRIES
        show st.consecutive503 + 1 < MAX_503_RETRIES
        unfold MAX_503_RETRIES at hunder ⊢
        omega)]
      refine ⟨rfl, rfl, rfl, rfl, ?_⟩
      simp [isSleepEv]
    · intro hover
      rw [workerBody_err hne, handleWorkerError_503_cap h503 (by
        show MAX_503_RETRIES ≤ (workerClaimState cfg workerId st).consecutive503 + 1
        show MAX_503_RETRIES ≤ st.consecutive503 + 1
        unfold MAX_503_RETRIES at hover ⊢
        omega)]
      exact ⟨rfl, rfl, rfl⟩
  · intro processed hlen hval
    rw [workerBody_commit hne hlen hval]
    exact ⟨rfl, by simp [countCommits]⟩

/-- Witness for C6: on the sample state (counter 0) a 503 failure is
retried: released once, only the 30-second retry sleep, counter 1. -/
theorem retry_cap_contract_witness :
    (claimBatch sampleCfg.batchSize sampleState.db).1.isEmpty = false ∧
      strContains "Gemini API error (503): overloaded" "503" = true ∧
      sampleState.consecutive503 + 1 ≤ MAX_503_RETRIES - 1 ∧
      (workerBody sampleCfg (fun _ => true) 1 sampleState
        (.err "Gemini API error (503): overloaded")).2.2 = StepResult.continueLoop :=
  ⟨by decide, by decide, by decide,
    (((retry_cap_contract sampleCfg (fun _ => true) 1 sampleState (by decide)).1
      "Gemini API error (503): overloaded" (by decide)).1 (by decide)).1⟩

/-! ## C7: fatal classification and propagation -/

/-- Claim C7: every dispatch failure that is a non-503 server error (a
message mentioning `status` with a `5xx` code, per `/5\d{2}/`) or a
transport/connectivity failure (`network`, `ECONNREFUSED`,
`ENOTFOUND`) is classified fatal by `isFatalError`; in the worker
loop, the shared stop flag is set (equivalently, the iteration exits)
only on a fatal classification or on the 503 retry-cap escalation;
every other dispatch failure is handled inside the loop — the batch is
released exactly once, the failure is logged, the stop flag stays
clear and the iteration continues normally. -/
theorem fatal_propagation_contract :
    (∀ msg : String, strContains msg "503" = false →
      ((strContains msg "status" && regex5xxTest msg) = true ∨
        strContains msg "network" = true ∨
        strContains msg "ECONNREFUSED" = true ∨
        strContains msg "ENOTFOUND" = true) →
      isFatalError msg = true) ∧
    (∀ (cfg : WorkerConfig) (jsonOk : String → Bool) (workerId : Nat)
        (st : WState) (msg : String),
      (claimBatch cfg.batchSize st.db).1.isEmpty = false →
      st.stopSignal = false →
      (((workerBody cfg jsonOk workerId st (.err msg)).1.stopSignal = true ∨
          (workerBody cfg jsonOk workerId st (.err msg)).2.2 = StepResult.exited) →
        (isFatalError msg = true ∨
          (strContains msg "503" = true ∧
            MAX_503_RETRIES ≤ st.consecutive503 + 1))) ∧
      (isFatalError msg = false →
        ¬(strContains msg "503" = true ∧ MAX_503_RETRIES ≤ st.consecutive503 + 1) →
        (workerBody cfg jsonOk workerId st (.err msg)).2.2 = StepResult.continueLoop ∧
        (workerBody cfg jsonOk workerId st (.err msg)).1.stopSignal = false ∧
        countReleases (workerBody cfg jsonOk workerId st (.err msg)).2.1 = 1 ∧
        Ev.logErrorEv (workerClaimState cfg workerId st).progress.getBatchNumber
            (workerBatchIds cfg st) msg ∈
          (workerBody cfg jsonOk workerId st (.err msg)).2.1)) := by
  constructor
  · intro msg h503 hkind
    unfold isFatalError
    rw [if_neg (by simp [h503])]
    rcases hkind with h | h | h | h <;> simp [h]
  · intro cfg jsonOk workerId st msg hne hstop0
    constructor
    · intro hset
      by_cases h503 : strContains msg "503"
      · by_cases hcap : MAX_503_RETRIES ≤ st.consecutive503 + 1
        · exact Or.inr ⟨h503, hcap⟩
        · rw [workerBody_err hne, handleWorkerError_503_retry h503 (by
            show st.consecutive503 + 1 < MAX_503_RETRIES
            omega)] at hset
          rcases hset with hset | hset
          · rw [show ({ workerClaimState cfg workerId st with
                consecutive503 := st.consecutive503 + 1,
                db := markBatchFailed (workerBatchIds cfg st)
                  (workerClaimState cfg workerId st).db,
                progress := (workerClaimState cfg workerId st).progress.failBatch
                  workerId } : WState).stopSignal = st.stopSignal from rfl] at hset
            rw [hstop0] at hset
            cases hset
          · cases hset
      · by_cases hfatal : isFatalError msg
        · exact Or.inl hfatal
        · rw [workerBody_err hne, handleWorkerError_default (by simpa using h503)
            (by simpa using hfatal)] at hset
          rcases hset with hset | hset
          · rw [show ({ workerClaimState cfg workerId st with
                db := markBatchFailed (workerBatchIds cfg st)
                  (workerClaimState cfg workerId st).db,
                progress := (workerClaimState cfg workerId st).progress.failBatch
                  workerId } : WState).stopSignal = st.stopSignal from rfl] at hset
            rw [hstop0] at hset
            cases hset
          · cases hset
    · intro hfatal hncap
      by_cases h503 : strContains msg "503"
      · have hcap : st.consecutive503 + 1 < MAX_503_RETRIES := by
          rcases Nat.lt_or_ge (st.consecutive503 + 1) MAX_503_RETRIES with h | h
          · exact h
          · exact absurd ⟨h503, h⟩ hncap
        rw [workerBody_err hne, handleWorkerError_503_retry h503
          (show (workerClaimState cfg workerId st).consecutive503 + 1 <
            MAX_503_RETRIES from hcap)]
        refine ⟨rfl, hstop0, ?_, ?_⟩
        · rw [countReleases_cons_log]
          rfl
        · simp
      · rw [workerBody_err hne, handleWorkerError_default (by simpa using h503)
          (by simpa using hfatal)]
        refine ⟨rfl, hstop0, ?_, ?_⟩
        · rw [countReleases_cons_log]
          rfl
        · simp

/-- Witness for C7: the message `error status 502 bad gateway` has no
`503`, does mention `status` with a 5xx code, and is classified fatal;
and a non-fatal message (`Invalid response structure`) on the sample state
continues with exactly one release and a clear stop flag. -/
theorem fatal_propagation_contract_witness :
    strContains "error status 502 bad gateway" "503" = false ∧
      isFatalError "error status 502 bad gateway" = true ∧
      (workerBody sampleCfg (fun _ => true) 1 sampleState
        (.err "Invalid response structure")).2.2 = StepResult.continueLoop := by
  refine ⟨by decide, ?_, ?_⟩
  · exact fatal_propagation_contract.1 "error status 502 bad gateway" (by decide)
      (Or.inl (by decide))
  · exact (((fatal_propagation_contract.2 sampleCfg (fun _ => true) 1 sampleState
      "Invalid response structure" (by decide) (by decide)).2 (by decide)
      (by decide)).1)

/-! ## C8: commit length precondition -/

/-- Counterexample to C8 as stated: a result list of 429 items against
a 2-item batch produces the mismatch message
`Expected 2 questions, got 429`, whose `429` makes `isFatalError`
classify it fatal: the worker sets the stop flag and exits without
releasing — the mismatch is not handled as the claimed non-fatal
release-and-continue. -/
theorem commit_length_guard_counterexample :
    (claimBatch sampleCfg.batchSize sampleState.db).1.length = 2 ∧
    (List.replicate 429 pqGood1).length ≠ 2 ∧
    countCommits (workerBody sampleCfg (fun _ => true) 1 sampleState
        (Outcome.ok (List.replicate 429 pqGood1))).2.1 = 0 ∧
    (workerBody sampleCfg (fun _ => true) 1 sampleState
        (Outcome.ok (List.replicate 429 pqGood1))).2.2 = StepResult.exited ∧
    (workerBody sampleCfg (fun _ => true) 1 sampleState
        (Outcome.ok (List.replicate 429 pqGood1))).1.stopSignal = true ∧
    countReleases (workerBody sampleCfg (fun _ => true) 1 sampleState
        (Outcome.ok (List.replicate 429 pqGood1))).2.1 = 0 := by
  set_option maxRecDepth 10000 in decide

/-- Claim C8, amended: for every claimed batch and every result list of
the wrong length, the worker never invokes commit (`updateBatch`) —
the mismatch is detected before any write-back; and provided the
mismatch message `Expected N questions, got M` matches none of the
error-classification substrings (no `'503'` and not `isFatalError`,
which only fails when a length's digits spell a recognized HTTP code,
e.g. a 429- or 503-length list), it is treated as non-fatal: the batch
is released (every claimed row set back to `unprocessed`), the stop
flag stays as it was, and the worker continues to its next claim. -/
theorem commit_length_guard (cfg : WorkerConfig) (jsonOk : String → Bool)
    (workerId : Nat) (st : WState) (processed : List ProcessedQuestion)
    (hne : (claimBatch cfg.batchSize st.db).1.isEmpty = false)
    (hlen : processed.length ≠ (claimBatch cfg.batchSize st.db).1.length) :
    countCommits (workerBody cfg jsonOk workerId st (.ok processed)).2.1 = 0 ∧
    (strContains (mismatchMsg (claimBatch cfg.batchSize st.db).1.length
        processed.length) "503" = false →
      isFatalError (mismatchMsg (claimBatch cfg.batchSize st.db).1.length
        processed.length) = false →
      (workerBody cfg jsonOk workerId st (.ok processed)).2.2 =
        StepResult.continueLoop ∧
      (workerBody cfg jsonOk workerId st (.ok processed)).1.stopSignal =
        st.stopSignal ∧
      countReleases (workerBody cfg jsonOk workerId st (.ok processed)).2.1 = 1 ∧
      ∀ r ∈ (workerBody cfg jsonOk workerId st (.ok processed)).1.db,
        r.id ∈ workerBatchIds cfg st → r.status = "unprocessed") := by
  constructor
  · rw [workerBody_mismatch hne hlen]
    rcases handleWorkerError_cases cfg workerId
        (mismatchMsg (claimBatch cfg.batchSize st.db).1.length processed.length)
        (workerBatchIds cfg st) (workerClaimState cfg workerId st) with
      ⟨_, hc, _⟩ | ⟨_, hc, _⟩ <;>
      rw [countCommits_cons_log, hc]
  · intro h503 hfatal
    rw [workerBody_mismatch hne hlen,
      handleWorkerError_default h503 hfatal]
    refine ⟨rfl, rfl, ?_, ?_⟩
    · rw [countReleases_cons_log]
      rfl
    · intro r hr hrid
      exact markBatchFailed_sets r hr hrid

/-- Witness for the amended C8: one extra item (3 against the sample
batch of 2) yields the message `Expected 2 questions, got 3`, which
is benign: no commit, one release, worker continues. -/
theorem commit_length_guard_witness :
    (claimBatch sampleCfg.batchSize sampleState.db).1.isEmpty = false ∧
      ([pqGood1, pqGood2, pqGood1] : List ProcessedQuestion).length ≠
        (claimBatch sampleCfg.batchSize sampleState.db).1.length ∧
      countCommits (workerBody sampleCfg (fun _ => true) 1 sampleState
        (Outcome.ok [pqGood1, pqGood2, pqGood1])).2.1 = 0 ∧
      (workerBody sampleCfg (fun _ => true) 1 sampleState
        (Outcome.ok [pqGood1, pqGood2, pqGood1])).2.2 = StepResult.continueLoop := by
  have h := commit_length_guard sampleCfg (fun _ => true) 1 sampleState
    [pqGood1, pqGood2, pqGood1] (by decide) (by decide)
  exact ⟨by decide, by decide, h.1, (h.2 (by decide) (by decide)).1⟩

end QuestionCleaner
